import Mathlib

/-!
# Verification of the rejectchess position/search stack

Shallow embedding of the Rust sources (`src/board.rs`, `src/state.rs`,
`src/movegen.rs`, `src/rules.rs`, `src/engine.rs`, `src/game.rs`).

Modelling conventions:
* Rust `u8` file/rank coordinates are embedded as `Nat`; signed `i8`
  scratch coordinates (used inside generators and the attack oracle,
  always guarded by `in_bounds`) are embedded as `Int`.  On the 0..7
  coordinates the program actually manipulates, no wrap-around occurs,
  so no modular reduction is needed.
* A Rust `panic!`/`expect` is embedded as `Option.none`: fallible
  routines return `Option`, and `none` marks the panic.
* The 8×8 array board is embedded as a total function from squares to
  `Option Piece`.  The Rust code only ever indexes it with coordinates
  that passed `in_bounds` (out-of-range indexing would panic); where a
  claim depends on index validity we prove bounds separately.
* `src/lib.rs` declares `pub mod dirs;` but `src/dirs.rs` is not among
  the sources; the direction tables are modelled from the spec (§4.A).
* `src/moves.rs` as shipped declares a `MoveKind` that the rest of the
  sources do not use; `movegen.rs`, `rules.rs` and `engine.rs` all
  construct and match `MoveKind::Normal`, `MoveKind::EnPassant`,
  `MoveKind::CastleKingside`, `MoveKind::CastleQueenside` and
  `MoveKind::Promotion(kind)`, and build `Move { from, to, kind }`.
  We embed that variant (it is also the one the spec's data model §3
  describes).  The Rust field `from` is a Lean keyword, so the fields
  are named `fromSq`/`toSq`.
-/

/-- `board.rs`: piece colors. -/
inductive Color : Type
  | White : Color
  | Black : Color
deriving DecidableEq

/-- `Color::opposite`. -/
def Color.opposite : Color → Color
  | Color.White => Color.Black
  | Color.Black => Color.White

/-- `board.rs`: the six piece kinds. -/
inductive PieceKind : Type
  | Pawn : PieceKind
  | Knight : PieceKind
  | Bishop : PieceKind
  | Rook : PieceKind
  | Queen : PieceKind
  | King : PieceKind
deriving DecidableEq

/-- `board.rs`: a colored piece. -/
structure Piece : Type where
  color : Color
  kind : PieceKind
deriving DecidableEq

/-- `board.rs`: `pub type Square = (u8, u8); // file, rank`. -/
abbrev Square : Type := Nat × Nat

/-- `board.rs`: the 8×8 board, embedded as a total map (see header). -/
abbrev Board : Type := Square → Option Piece

/-- `board.rs::in_bounds` on signed coordinates. -/
def in_bounds (file rank : Int) : Bool :=
  0 ≤ file && file < 8 && 0 ≤ rank && rank < 8

/-- `board.rs::piece_at`. -/
def piece_at (board : Board) (sq : Square) : Option Piece :=
  board sq

/-- `board.rs::set_piece`. -/
def set_piece (board : Board) (sq : Square) (piece : Option Piece) : Board :=
  fun t => if t = sq then piece else board t

/-- A square whose coordinates index the 8×8 array without panicking. -/
def inBoard (sq : Square) : Prop :=
  sq.1 < 8 ∧ sq.2 < 8

instance (sq : Square) : Decidable (inBoard sq) := by
  unfold inBoard; infer_instance

/-- Modelled from the spec: `src/dirs.rs` is declared by `lib.rs` but is
not among the sources.  Spec §4.A: "KNIGHT: the 8 L-shaped offsets." -/
def KNIGHT_DIRS : List (Int × Int) :=
  [(-2, -1), (-2, 1), (-1, -2), (-1, 2), (1, -2), (1, 2), (2, -1), (2, 1)]

/-- Modelled from the spec (§4.A): "KING: the 8 unit offsets." -/
def KING_DIRS : List (Int × Int) :=
  [(-1, -1), (-1, 0), (-1, 1), (0, -1), (0, 1), (1, -1), (1, 0), (1, 1)]

/-- Modelled from the spec (§4.A): "ROOK: {(±1,0),(0,±1)}". -/
def ROOK_DIRS : List (Int × Int) :=
  [(-1, 0), (1, 0), (0, -1), (0, 1)]

/-- Modelled from the spec (§4.A): "BISHOP: {(±1,±1)}". -/
def BISHOP_DIRS : List (Int × Int) :=
  [(-1, -1), (-1, 1), (1, -1), (1, 1)]

/-- Modelled from the spec (§4.A): "QUEEN = ROOK ∪ BISHOP". -/
def QUEEN_DIRS : List (Int × Int) :=
  ROOK_DIRS ++ BISHOP_DIRS

/-- The move kinds used by `movegen.rs`/`rules.rs`/`engine.rs` (see header). -/
inductive MoveKind : Type
  | Normal : MoveKind
  | EnPassant : MoveKind
  | CastleKingside : MoveKind
  | CastleQueenside : MoveKind
  | Promotion : PieceKind → MoveKind
deriving DecidableEq

/-- The move record built by `movegen.rs::push_move`. -/
structure Move : Type where
  fromSq : Square
  toSq : Square
  kind : MoveKind
deriving DecidableEq

/-- `state.rs::CastlingRights`. -/
structure CastlingRights : Type where
  white_kingside : Bool
  white_queenside : Bool
  black_kingside : Bool
  black_queenside : Bool
deriving DecidableEq

/-- `CastlingRights::new`. -/
def CastlingRights.new : CastlingRights :=
  { white_kingside := true, white_queenside := true
    black_kingside := true, black_queenside := true }

/-- `state.rs::GameState`. -/
structure GameState : Type where
  board : Board
  side_to_move : Color
  castling : CastlingRights
  en_passant : Option Square
  white_king : Square
  black_king : Square

/-- The back rank of `GameState::new`. -/
def back_rank : List PieceKind :=
  [PieceKind.Rook, PieceKind.Knight, PieceKind.Bishop, PieceKind.Queen,
   PieceKind.King, PieceKind.Bishop, PieceKind.Knight, PieceKind.Rook]

/-- `GameState::new`: the standard initial position.  The mutation loops
of the source are summarised as a by-cases description of the finished
board (ranks 0/1/6/7 populated, all other squares empty). -/
def GameState.new : GameState :=
  { board := fun sq =>
      if sq.2 = 0 then (back_rank.get? sq.1).map (fun k => ⟨Color.White, k⟩)
      else if sq.2 = 1 then if sq.1 < 8 then some ⟨Color.White, PieceKind.Pawn⟩ else none
      else if sq.2 = 6 then if sq.1 < 8 then some ⟨Color.Black, PieceKind.Pawn⟩ else none
      else if sq.2 = 7 then (back_rank.get? sq.1).map (fun k => ⟨Color.Black, k⟩)
      else none
    side_to_move := Color.White
    castling := CastlingRights.new
    en_passant := none
    white_king := (4, 0)
    black_king := (4, 7) }

/-! ## Candidate move generator (`movegen.rs`)

The Rust generator functions re-read the moving piece from the board
with `.expect(...)`; `generate_candidates` only calls them on squares it
just found occupied, so the lookup cannot fail there and we pass the
piece along instead of re-reading it.  Each `gen_*` function returns the
list of moves it would have pushed, in push order. -/

/-- `movegen.rs::PROMOTION_PIECES`. -/
def PROMOTION_PIECES : List PieceKind :=
  [PieceKind.Queen, PieceKind.Rook, PieceKind.Bishop, PieceKind.Knight]

/-- `movegen.rs::add_promotion_moves`. -/
def add_promotion_moves (fromSq toSq : Square) : List Move :=
  PROMOTION_PIECES.map (fun promo => ⟨fromSq, toSq, MoveKind.Promotion promo⟩)

/-- `movegen.rs::add_step_move`. -/
def add_step_move (s : GameState) (piece : Piece) (fromSq toSq : Square) : List Move :=
  match piece_at s.board toSq with
  | some target => if target.color ≠ piece.color then [⟨fromSq, toSq, MoveKind.Normal⟩] else []
  | none => [⟨fromSq, toSq, MoveKind.Normal⟩]

/-- `movegen.rs::gen_pawn_moves` (single/double pushes, then captures,
then en passant, in the source's push order). -/
def gen_pawn_moves (s : GameState) (fromSq : Square) (piece : Piece) : List Move :=
  let dir : Int := if piece.color = Color.White then 1 else -1
  let start_rank : Nat := if piece.color = Color.White then 1 else 6
  let last_rank : Nat := if piece.color = Color.White then 7 else 0
  let file : Int := fromSq.1
  let rank : Int := fromSq.2
  let one_rank := rank + dir
  let pushes : List Move :=
    if in_bounds file one_rank then
      let toSq : Square := (file.toNat, one_rank.toNat)
      if piece_at s.board toSq = none then
        if toSq.2 = last_rank then add_promotion_moves fromSq toSq
        else
          let dbl : List Move :=
            if fromSq.2 = start_rank then
              let two_rank := rank + dir * 2
              let to_two : Square := (file.toNat, two_rank.toNat)
              if in_bounds file two_rank then
                if piece_at s.board to_two = none then [⟨fromSq, to_two, MoveKind.Normal⟩]
                else []
              else []
            else []
          ⟨fromSq, toSq, MoveKind.Normal⟩ :: dbl
      else []
    else []
  let caps : List Move :=
    ([-1, 1] : List Int).flatMap (fun df =>
      let nf := file + df
      let nr := rank + dir
      if in_bounds nf nr then
        let toSq : Square := (nf.toNat, nr.toNat)
        match piece_at s.board toSq with
        | some target =>
          if target.color ≠ piece.color then
            if toSq.2 = last_rank then add_promotion_moves fromSq toSq
            else [⟨fromSq, toSq, MoveKind.Normal⟩]
          else []
        | none => []
      else [])
  let ep : List Move :=
    match s.en_passant with
    | some epsq =>
      if (epsq.2 : Int) = rank + dir ∧ ((epsq.1 : Int) - file).natAbs = 1 then
        [⟨fromSq, epsq, MoveKind.EnPassant⟩]
      else []
    | none => []
  pushes ++ caps ++ ep

/-- `movegen.rs::gen_knight_moves`. -/
def gen_knight_moves (s : GameState) (fromSq : Square) (piece : Piece) : List Move :=
  KNIGHT_DIRS.flatMap (fun d =>
    let nf := (fromSq.1 : Int) + d.1
    let nr := (fromSq.2 : Int) + d.2
    if in_bounds nf nr then add_step_move s piece fromSq (nf.toNat, nr.toNat) else [])

/-- The `while` loop of `movegen.rs::gen_slider_moves` for one direction,
with explicit fuel.  Along a nonzero direction at most 7 consecutive
probes are in bounds, so fuel 8 makes the recursion equal to the loop. -/
def gen_slider_ray (s : GameState) (piece : Piece) (fromSq : Square)
    (df dr : Int) : Int → Int → Nat → List Move
  | _, _, 0 => []
  | nf, nr, fuel + 1 =>
    if in_bounds nf nr then
      let toSq : Square := (nf.toNat, nr.toNat)
      match piece_at s.board toSq with
      | some target =>
        if target.color ≠ piece.color then [⟨fromSq, toSq, MoveKind.Normal⟩] else []
      | none =>
        ⟨fromSq, toSq, MoveKind.Normal⟩ :: gen_slider_ray s piece fromSq df dr (nf + df) (nr + dr) fuel
    else []

/-- `movegen.rs::gen_slider_moves`. -/
def gen_slider_moves (s : GameState) (fromSq : Square) (piece : Piece)
    (dirs : List (Int × Int)) : List Move :=
  dirs.flatMap (fun d =>
    gen_slider_ray s piece fromSq d.1 d.2 ((fromSq.1 : Int) + d.1) ((fromSq.2 : Int) + d.2) 8)

/-- `movegen.rs::gen_king_moves` (step moves, then the castling pushes). -/
def gen_king_moves (s : GameState) (fromSq : Square) (piece : Piece) : List Move :=
  let steps : List Move :=
    KING_DIRS.flatMap (fun d =>
      let nf := (fromSq.1 : Int) + d.1
      let nr := (fromSq.2 : Int) + d.2
      if in_bounds nf nr then add_step_move s piece fromSq (nf.toNat, nr.toNat) else [])
  let rook : Piece := ⟨piece.color, PieceKind.Rook⟩
  let castles : List Move :=
    match piece.color with
    | Color.White =>
      (if fromSq = (4, 0) ∧ s.castling.white_kingside then
        if piece_at s.board (5, 0) = none ∧ piece_at s.board (6, 0) = none ∧
            piece_at s.board (7, 0) = some rook then
          [⟨fromSq, (6, 0), MoveKind.CastleKingside⟩]
        else []
      else []) ++
      (if fromSq = (4, 0) ∧ s.castling.white_queenside then
        if piece_at s.board (1, 0) = none ∧ piece_at s.board (2, 0) = none ∧
            piece_at s.board (3, 0) = none ∧ piece_at s.board (0, 0) = some rook then
          [⟨fromSq, (2, 0), MoveKind.CastleQueenside⟩]
        else []
      else [])
    | Color.Black =>
      (if fromSq = (4, 7) ∧ s.castling.black_kingside then
        if piece_at s.board (5, 7) = none ∧ piece_at s.board (6, 7) = none ∧
            piece_at s.board (7, 7) = some rook then
          [⟨fromSq, (6, 7), MoveKind.CastleKingside⟩]
        else []
      else []) ++
      (if fromSq = (4, 7) ∧ s.castling.black_queenside then
        if piece_at s.board (1, 7) = none ∧ piece_at s.board (2, 7) = none ∧
            piece_at s.board (3, 7) = none ∧ piece_at s.board (0, 7) = some rook then
          [⟨fromSq, (2, 7), MoveKind.CastleQueenside⟩]
        else []
      else [])
  steps ++ castles

/-- `movegen.rs::generate_candidates`: scan ranks 0..7 outer, files 0..7
inner, dispatch on the friendly piece found. -/
def generate_candidates (s : GameState) : List Move :=
  (List.range 8).flatMap (fun rank =>
    (List.range 8).flatMap (fun file =>
      let fromSq : Square := (file, rank)
      match piece_at s.board fromSq with
      | some piece =>
        if piece.color = s.side_to_move then
          match piece.kind with
          | PieceKind.Pawn => gen_pawn_moves s fromSq piece
          | PieceKind.Knight => gen_knight_moves s fromSq piece
          | PieceKind.Bishop => gen_slider_moves s fromSq piece BISHOP_DIRS
          | PieceKind.Rook => gen_slider_moves s fromSq piece ROOK_DIRS
          | PieceKind.Queen => gen_slider_moves s fromSq piece QUEEN_DIRS
          | PieceKind.King => gen_king_moves s fromSq piece
        else []
      | none => []))

/-! ## Attack oracle and rules (`rules.rs`) -/

/-- One sliding-ray scan of `rules.rs::diagonal_attacked` /
`orthogonal_attacked`, with explicit fuel (8 suffices, as for
`gen_slider_ray`).  `kinds` is the attacker set the `matches!` tests. -/
def ray_attacked (b : Board) (by_color : Color) (kinds : List PieceKind)
    (df dr : Int) : Int → Int → Nat → Bool
  | _, _, 0 => false
  | nf, nr, fuel + 1 =>
    if in_bounds nf nr then
      match b (nf.toNat, nr.toNat) with
      | some p => p.color == by_color && kinds.contains p.kind
      | none => ray_attacked b by_color kinds df dr (nf + df) (nr + dr) fuel
    else false

/-- `rules.rs::diagonal_attacked`. -/
def diagonal_attacked (s : GameState) (square : Square) (by_color : Color) : Bool :=
  BISHOP_DIRS.any (fun d =>
    ray_attacked s.board by_color [PieceKind.Bishop, PieceKind.Queen] d.1 d.2
      ((square.1 : Int) + d.1) ((square.2 : Int) + d.2) 8)

/-- `rules.rs::orthogonal_attacked`. -/
def orthogonal_attacked (s : GameState) (square : Square) (by_color : Color) : Bool :=
  ROOK_DIRS.any (fun d =>
    ray_attacked s.board by_color [PieceKind.Rook, PieceKind.Queen] d.1 d.2
      ((square.1 : Int) + d.1) ((square.2 : Int) + d.2) 8)

/-- `rules.rs::is_square_attacked`: pawns, knights, kings, then rays. -/
def is_square_attacked (s : GameState) (square : Square) (by_color : Color) : Bool :=
  let file : Int := square.1
  let rank : Int := square.2
  let pawn_dir : Int := if by_color = Color.White then -1 else 1
  (([-1, 1] : List Int).any (fun df =>
    let nf := file + df
    let nr := rank + pawn_dir
    in_bounds nf nr && piece_at s.board (nf.toNat, nr.toNat) == some ⟨by_color, PieceKind.Pawn⟩))
  || (KNIGHT_DIRS.any (fun d =>
    let nf := file + d.1
    let nr := rank + d.2
    in_bounds nf nr && piece_at s.board (nf.toNat, nr.toNat) == some ⟨by_color, PieceKind.Knight⟩))
  || (KING_DIRS.any (fun d =>
    let nf := file + d.1
    let nr := rank + d.2
    in_bounds nf nr && piece_at s.board (nf.toNat, nr.toNat) == some ⟨by_color, PieceKind.King⟩))
  || diagonal_attacked s square by_color
  || orthogonal_attacked s square by_color

/-- The rank-major scan order of `rules.rs::find_king`. -/
def all_squares : List Square :=
  (List.range 8).flatMap (fun rank => (List.range 8).map (fun file => (file, rank)))

/-- `rules.rs::find_king`: first king of `color` in rank-major order. -/
def find_king (board : Board) (color : Color) : Option Square :=
  all_squares.find? (fun sq => piece_at board sq == some ⟨color, PieceKind.King⟩)

/-- `rules.rs::is_in_check`; `none` is the `expect("missing king")` panic. -/
def is_in_check? (s : GameState) (color : Color) : Option Bool :=
  (find_king s.board color).map (fun king_sq => is_square_attacked s king_sq color.opposite)

/-- `rules.rs::king_passes_through_check`. -/
def king_passes_through_check (s : GameState) (mv : Move) : Bool :=
  let mover := s.side_to_move
  let rank : Nat := if mover = Color.White then 0 else 7
  match mv.kind with
  | MoveKind.CastleKingside =>
    is_square_attacked s (5, rank) mover.opposite || is_square_attacked s (6, rank) mover.opposite
  | MoveKind.CastleQueenside =>
    is_square_attacked s (3, rank) mover.opposite || is_square_attacked s (2, rank) mover.opposite
  | _ => false

/-- `rules.rs::clear_castling_rights`. -/
def clear_castling_rights (castling : CastlingRights) (color : Color) : CastlingRights :=
  match color with
  | Color.White => { castling with white_kingside := false, white_queenside := false }
  | Color.Black => { castling with black_kingside := false, black_queenside := false }

/-- `rules.rs::update_castling_rights_on_move`. -/
def update_castling_rights_on_move (s : GameState) (piece : Piece) (fromSq : Square) : GameState :=
  match piece.kind with
  | PieceKind.King => { s with castling := clear_castling_rights s.castling piece.color }
  | PieceKind.Rook =>
    match piece.color, fromSq with
    | Color.White, (0, 0) => { s with castling := { s.castling with white_queenside := false } }
    | Color.White, (7, 0) => { s with castling := { s.castling with white_kingside := false } }
    | Color.Black, (0, 7) => { s with castling := { s.castling with black_queenside := false } }
    | Color.Black, (7, 7) => { s with castling := { s.castling with black_kingside := false } }
    | _, _ => s
  | _ => s

/-- `rules.rs::update_castling_rights_on_capture`. -/
def update_castling_rights_on_capture (s : GameState) (square : Square) (piece : Piece) : GameState :=
  if piece.kind ≠ PieceKind.Rook then s
  else
    match piece.color, square with
    | Color.White, (0, 0) => { s with castling := { s.castling with white_queenside := false } }
    | Color.White, (7, 0) => { s with castling := { s.castling with white_kingside := false } }
    | Color.Black, (0, 7) => { s with castling := { s.castling with black_queenside := false } }
    | Color.Black, (7, 7) => { s with castling := { s.castling with black_kingside := false } }
    | _, _ => s

/-- The board writes plus capture record of the `match mv.kind` block in
`rules.rs::apply_move_unchecked`; `none` is the `expect("missing rook")`
panic of the castle arm. -/
def apply_move_step (s : GameState) (mv : Move) (moving_piece : Piece) :
    Option (Board × Option Square × Option Piece) :=
  match mv.kind with
  | MoveKind.CastleKingside | MoveKind.CastleQueenside =>
    let g : Nat × Nat × Nat × Nat :=
      match moving_piece.color with
      | Color.White => if mv.kind = MoveKind.CastleKingside then (0, 7, 5, 6) else (0, 0, 3, 2)
      | Color.Black => if mv.kind = MoveKind.CastleKingside then (7, 7, 5, 6) else (7, 0, 3, 2)
    let rank := g.1
    let king_to : Square := (g.2.2.2, rank)
    let rook_from : Square := (g.2.1, rank)
    let rook_to : Square := (g.2.2.1, rank)
    match piece_at s.board rook_from with
    | none => none
    | some rook =>
      let b := set_piece s.board mv.fromSq none
      let b := set_piece b king_to (some moving_piece)
      let b := set_piece b rook_from none
      let b := set_piece b rook_to (some rook)
      some (b, none, none)
  | MoveKind.EnPassant =>
    let capture_sq : Square := (mv.toSq.1, mv.fromSq.2)
    let captured_piece := piece_at s.board capture_sq
    let b := set_piece s.board capture_sq none
    let b := set_piece b mv.fromSq none
    let b := set_piece b mv.toSq (some moving_piece)
    some (b, some capture_sq, captured_piece)
  | MoveKind.Promotion promo =>
    let captured := piece_at s.board mv.toSq
    let captured_square : Option Square := if captured.isSome then some mv.toSq else none
    let b := set_piece s.board mv.fromSq none
    let b := set_piece b mv.toSq (some ⟨moving_piece.color, promo⟩)
    some (b, captured_square, captured)
  | MoveKind.Normal =>
    let captured := piece_at s.board mv.toSq
    let captured_square : Option Square := if captured.isSome then some mv.toSq else none
    let b := set_piece s.board mv.fromSq none
    let b := set_piece b mv.toSq (some moving_piece)
    some (b, captured_square, captured)

/-- The tail of `rules.rs::apply_move_unchecked` after the board writes:
castling-rights updates, the double-push en-passant target, and the
side-to-move flip. -/
def apply_finish (s1 : GameState) (mv : Move) (moving_piece : Piece)
    (b : Board) (captured_square : Option Square) (captured_piece : Option Piece) : GameState :=
  let s2 : GameState := { s1 with board := b }
  let s3 := update_castling_rights_on_move s2 moving_piece mv.fromSq
  let s4 :=
    match captured_square, captured_piece with
    | some square, some piece => update_castling_rights_on_capture s3 square piece
    | _, _ => s3
  let s5 :=
    if moving_piece.kind = PieceKind.Pawn ∧ mv.kind = MoveKind.Normal then
      if mv.fromSq.1 = mv.toSq.1 ∧ ((mv.toSq.2 : Int) - (mv.fromSq.2 : Int)).natAbs = 2 then
        { s4 with en_passant := some (mv.fromSq.1, (mv.toSq.2 + mv.fromSq.2) / 2) }
      else s4
    else s4
  { s5 with side_to_move := s5.side_to_move.opposite }

/-- `rules.rs::apply_move_unchecked`; `none` marks either `expect` panic. -/
def apply_move_unchecked (s : GameState) (mv : Move) : Option GameState :=
  match piece_at s.board mv.fromSq with
  | none => none
  | some moving_piece =>
    let s1 : GameState := { s with en_passant := none }
    match apply_move_step s1 mv moving_piece with
    | none => none
    | some (b, captured_square, captured_piece) =>
      some (apply_finish s1 mv moving_piece b captured_square captured_piece)

/-- `rules.rs::is_move_legal`; `none` is a panic inside the trial. -/
def is_move_legal? (s : GameState) (mv : Move) : Option Bool :=
  let mover := s.side_to_move
  let after : Option Bool :=
    match apply_move_unchecked s mv with
    | none => none
    | some next =>
      match is_in_check? next mover with
      | none => none
      | some c => some (!c)
  match mv.kind with
  | MoveKind.CastleKingside | MoveKind.CastleQueenside =>
    match is_in_check? s mover with
    | none => none
    | some true => some false
    | some false => if king_passes_through_check s mv then some false else after
  | _ => after

/-- Rust's `Iterator::filter`+`collect` with a predicate that may panic:
the first panic aborts the whole computation. -/
def filter_some {α : Type} (p : α → Option Bool) : List α → Option (List α)
  | [] => some []
  | a :: as =>
    match p a with
    | none => none
    | some true => (filter_some p as).map (a :: ·)
    | some false => filter_some p as

/-- `rules.rs::legal_moves`. -/
def legal_moves? (s : GameState) : Option (List Move) :=
  filter_some (is_move_legal? s) (generate_candidates s)

/-- `rules.rs::is_checkmate` (the Rust `&&` short-circuits, so
`legal_moves` only runs when the side to move is in check). -/
def is_checkmate? (s : GameState) : Option Bool :=
  match is_in_check? s s.side_to_move with
  | none => none
  | some false => some false
  | some true => (legal_moves? s).map List.isEmpty

/-- `rules.rs::is_stalemate`. -/
def is_stalemate? (s : GameState) : Option Bool :=
  match is_in_check? s s.side_to_move with
  | none => none
  | some true => some false
  | some false => (legal_moves? s).map List.isEmpty

/-- `game.rs::Game::make_move`.  Outer `none` = panic inside the
legality check or the application; `some none` = `Err(IllegalMove)`
with the position untouched; `some (some s')` = `Ok` with new state. -/
def make_move (s : GameState) (mv : Move) : Option (Option GameState) :=
  match is_move_legal? s mv with
  | none => none
  | some true => (apply_move_unchecked s mv).map some
  | some false => some none

/-! ## Move ordering (`engine.rs`) -/

/-- `engine.rs::move_order_key`. -/
def move_order_key (s : GameState) (mv : Move) : Nat :=
  let is_promo : Bool := match mv.kind with | MoveKind.Promotion _ => true | _ => false
  let is_capture : Bool :=
    match mv.kind with
    | MoveKind.EnPassant => true
    | MoveKind.CastleKingside | MoveKind.CastleQueenside => false
    | MoveKind.Promotion _ | MoveKind.Normal => (piece_at s.board mv.toSq).isSome
  let key : Nat := 3
  let key := if is_promo then key - 2 else key
  let key := if is_capture then key - 1 else key
  key

/-- Stable insertion used to model `Vec::sort_by_key` (a stable sort):
`a` goes in front of the first element whose key is not smaller, so
equal keys keep their original relative order. -/
def insert_by_key {α : Type} (k : α → Nat) (a : α) : List α → List α
  | [] => [a]
  | b :: bs => if k b < k a then b :: insert_by_key k a bs else a :: b :: bs

/-- `Vec::sort_by_key` is a stable sort; a stable sort's output is
uniquely determined by the key and the input order, so any stable
sorting algorithm is a faithful model.  We use insertion sort. -/
def sort_by_key {α : Type} (k : α → Nat) : List α → List α
  | [] => []
  | a :: as => insert_by_key k a (sort_by_key k as)

/-- `engine.rs::ordered_candidates`. -/
def ordered_candidates (s : GameState) : List Move :=
  sort_by_key (move_order_key s) (generate_candidates s)

/-! ## FEN loading (`state.rs::from_fen`)

Embedded as `String → Option (Option GameState)`: the outer `none`
marks a panic (array indexing out of bounds for a rank beyond the
eighth or a file beyond the h-file, both reachable on malformed
placement fields), the inner `none` is the source's `return None`. -/

/-- The piece-letter table of `from_fen` (lower-cased letter). -/
def fen_kind : Char → Option PieceKind
  | 'p' => some PieceKind.Pawn
  | 'n' => some PieceKind.Knight
  | 'b' => some PieceKind.Bishop
  | 'r' => some PieceKind.Rook
  | 'q' => some PieceKind.Queen
  | 'k' => some PieceKind.King
  | _ => none

/-- `str::split`-style splitter on a character predicate, keeping empty
fragments (structural recursion so that proofs can evaluate it; Lean's
`String.split` is defined by well-founded recursion and does not reduce
in the kernel). -/
def split_on_pred (p : Char → Bool) : List Char → List (List Char)
  | [] => [[]]
  | c :: rest =>
    match split_on_pred p rest with
    | [] => [[]]
    | piece :: pieces => if p c then [] :: piece :: pieces else (c :: piece) :: pieces

/-- The UTF-8 encoding of one scalar value, as `str::as_bytes` exposes it. -/
def utf8_bytes_of_char (c : Char) : List Nat :=
  let n := c.toNat
  if n < 0x80 then [n]
  else if n < 0x800 then [0xC0 + n / 64, 0x80 + n % 64]
  else if n < 0x10000 then [0xE0 + n / 4096, 0x80 + (n / 64) % 64, 0x80 + n % 64]
  else [0xF0 + n / 262144, 0x80 + (n / 4096) % 64, 0x80 + (n / 64) % 64, 0x80 + n % 64]

/-- `str::as_bytes` of a string given as its character list. -/
def utf8_bytes (l : List Char) : List Nat :=
  l.flatMap utf8_bytes_of_char

/-- The inner character loop of `from_fen` over one rank string.
`acc` carries the board and the two tracked king squares. -/
def from_fen_rank (rank : Nat) : List Char → Nat → Board × Square × Square →
    Option (Option (Board × Square × Square))
  | [], _, acc => some (some acc)
  | c :: rest, file, (board, wk, bk) =>
    if c.isDigit then from_fen_rank rank rest (file + (c.toNat - 48)) (board, wk, bk)
    else
      let color := if c.isUpper then Color.White else Color.Black
      match fen_kind c.toLower with
      | none => some none
      | some kind =>
        let kings : Square × Square :=
          if kind = PieceKind.King then
            if color = Color.White then ((file, rank), bk) else (wk, (file, rank))
          else (wk, bk)
        if file < 8 then
          from_fen_rank rank rest (file + 1)
            (set_piece board (file, rank) (some ⟨color, kind⟩), kings.1, kings.2)
        else none

/-- The outer rank loop of `from_fen`; `rank_idx` is the `enumerate`
counter, the source computes `rank = 7 - rank_idx` with unchecked
`usize` arithmetic and indexes the board with it, so a ninth rank
panics (outer `none`). -/
def from_fen_ranks : List (List Char) → Nat → Board × Square × Square →
    Option (Option (Board × Square × Square))
  | [], _, acc => some (some acc)
  | rank_str :: rest, rank_idx, acc =>
    if rank_idx < 8 then
      match from_fen_rank (7 - rank_idx) rank_str 0 acc with
      | none => none
      | some none => some none
      | some (some acc') => from_fen_ranks rest (rank_idx + 1) acc'
    else none

/-- `state.rs::GameState::from_fen`.  `split_whitespace` is modelled by
splitting on whitespace and dropping empty fragments; the sequential
`parts.next()` calls become positional lookups.  The en-passant field
reads the raw UTF-8 bytes with `u8` wrapping subtraction, as the
source does. -/
def from_fen (fen : String) : Option (Option GameState) :=
  let parts := (split_on_pred Char.isWhitespace fen.toList).filter (fun t => t ≠ [])
  match parts.get? 0 with
  | none => some none
  | some board_str =>
    match from_fen_ranks (split_on_pred (fun c => c == '/') board_str) 0
        ((fun _ => none), (0, 0), (0, 0)) with
    | none => none
    | some none => some none
    | some (some (board, white_king, black_king)) =>
      match parts.get? 1 with
      | none => some none
      | some side_str =>
        match (if side_str = ['w'] then some Color.White
               else if side_str = ['b'] then some Color.Black else none) with
        | none => some none
        | some side_to_move =>
          let castling_str := (parts.get? 2).getD ['-']
          let castling : CastlingRights :=
            { white_kingside := castling_str.contains 'K'
              white_queenside := castling_str.contains 'Q'
              black_kingside := castling_str.contains 'k'
              black_queenside := castling_str.contains 'q' }
          let ep_str := (parts.get? 3).getD ['-']
          let en_passant : Option Square :=
            if ep_str = ['-'] then none
            else
              let bytes := utf8_bytes ep_str
              if bytes.length = 2 then
                let file := (bytes.getD 0 0 + 256 - 97) % 256
                let rank := (bytes.getD 1 0 + 256 - 49) % 256
                if file < 8 ∧ rank < 8 then some (file, rank) else none
              else none
          some (some { board := board, side_to_move := side_to_move, castling := castling,
                       en_passant := en_passant, white_king := white_king,
                       black_king := black_king })

/-! ## Auxiliary predicates and concrete positions used by the theorems -/

/-- Promotion moves, as the move-ordering description words it. -/
def is_promotion_mv (mv : Move) : Bool :=
  match mv.kind with
  | MoveKind.Promotion _ => true
  | _ => false

/-- Captures, as the move-ordering description words it: en passant
always, castles never, Normal/Promotion iff the destination is
occupied. -/
def is_capture_mv (s : GameState) (mv : Move) : Bool :=
  match mv.kind with
  | MoveKind.EnPassant => true
  | MoveKind.CastleKingside | MoveKind.CastleQueenside => false
  | MoveKind.Promotion _ | MoveKind.Normal => (piece_at s.board mv.toSq).isSome

/-- Pointwise order on castling rights: every right set in `a` is set
in `b`. -/
def rights_le (a b : CastlingRights) : Prop :=
  (a.white_kingside = true → b.white_kingside = true) ∧
  (a.white_queenside = true → b.white_queenside = true) ∧
  (a.black_kingside = true → b.black_kingside = true) ∧
  (a.black_queenside = true → b.black_queenside = true)

/-- The mover's home rank (rank of its back pieces). -/
def home_rank (c : Color) : Nat :=
  if c = Color.White then 0 else 7

/-- Forward direction of `c`'s pawns. -/
def pawn_dir (c : Color) : Int :=
  if c = Color.White then 1 else -1

/-- What membership in `generate_candidates` guarantees about a move
(proved below): the scanned origin holds a friendly piece, and each
move kind carries the side conditions its generator checked. -/
def cand_inv (s : GameState) (mv : Move) : Prop :=
  ∃ piece, piece_at s.board mv.fromSq = some piece ∧ piece.color = s.side_to_move ∧
    inBoard mv.fromSq ∧
    match mv.kind with
    | MoveKind.Normal =>
      inBoard mv.toSq ∧ ∀ t, piece_at s.board mv.toSq = some t → t.color ≠ piece.color
    | MoveKind.Promotion _ =>
      piece.kind = PieceKind.Pawn ∧ inBoard mv.toSq ∧
        ∀ t, piece_at s.board mv.toSq = some t → t.color ≠ piece.color
    | MoveKind.EnPassant =>
      s.en_passant = some mv.toSq ∧ piece.kind = PieceKind.Pawn ∧
        (mv.toSq.2 : Int) = (mv.fromSq.2 : Int) + pawn_dir piece.color
    | MoveKind.CastleKingside =>
      piece.kind = PieceKind.King ∧ mv.fromSq = (4, home_rank piece.color) ∧
        mv.toSq = (6, home_rank piece.color) ∧
        piece_at s.board (5, home_rank piece.color) = none ∧
        piece_at s.board (6, home_rank piece.color) = none ∧
        piece_at s.board (7, home_rank piece.color) = some ⟨piece.color, PieceKind.Rook⟩
    | MoveKind.CastleQueenside =>
      piece.kind = PieceKind.King ∧ mv.fromSq = (4, home_rank piece.color) ∧
        mv.toSq = (2, home_rank piece.color) ∧
        piece_at s.board (1, home_rank piece.color) = none ∧
        piece_at s.board (2, home_rank piece.color) = none ∧
        piece_at s.board (3, home_rank piece.color) = none ∧
        piece_at s.board (0, home_rank piece.color) = some ⟨piece.color, PieceKind.Rook⟩

/-- Build a small test board from an association list. -/
def board_of (l : List (Square × Piece)) : Board :=
  fun sq => (l.find? (fun e => e.1 == sq)).map (fun e => e.2)

/-- Two lone kings on their starting squares, White to move. -/
def state_kings_only : GameState :=
  { board := board_of [((4, 0), ⟨Color.White, PieceKind.King⟩),
                       ((4, 7), ⟨Color.Black, PieceKind.King⟩)]
    side_to_move := Color.White
    castling := { white_kingside := false, white_queenside := false
                  black_kingside := false, black_queenside := false }
    en_passant := none
    white_king := (4, 0)
    black_king := (4, 7) }

/-- Spec scenario S2: White king e1, White rook h1, kingside right set,
Black rook f8, Black king e8, White to move. -/
def state_s2 : GameState :=
  { board := board_of [((4, 0), ⟨Color.White, PieceKind.King⟩),
                       ((7, 0), ⟨Color.White, PieceKind.Rook⟩),
                       ((5, 7), ⟨Color.Black, PieceKind.Rook⟩),
                       ((4, 7), ⟨Color.Black, PieceKind.King⟩)]
    side_to_move := Color.White
    castling := { white_kingside := true, white_queenside := false
                  black_kingside := false, black_queenside := false }
    en_passant := none
    white_king := (4, 0)
    black_king := (4, 7) }

/-- A both-kings state whose en-passant target square is occupied by
the mover's own king (the position invariants do not hold, but the
type admits it): White king d6, White pawn e5, en-passant target d6. -/
def state_ep_own_king : GameState :=
  { board := board_of [((3, 5), ⟨Color.White, PieceKind.King⟩),
                       ((4, 7), ⟨Color.Black, PieceKind.King⟩),
                       ((4, 4), ⟨Color.White, PieceKind.Pawn⟩)]
    side_to_move := Color.White
    castling := { white_kingside := false, white_queenside := false
                  black_kingside := false, black_queenside := false }
    en_passant := some (3, 5)
    white_king := (3, 5)
    black_king := (4, 7) }

/-- The twenty legal opening moves, in generator emission order (the
four knight moves from the back rank are scanned first, then the pawn
single and double pushes file by file). -/
def initial_legal_list : List Move :=
  [⟨(1, 0), (0, 2), MoveKind.Normal⟩, ⟨(1, 0), (2, 2), MoveKind.Normal⟩,
   ⟨(6, 0), (5, 2), MoveKind.Normal⟩, ⟨(6, 0), (7, 2), MoveKind.Normal⟩,
   ⟨(0, 1), (0, 2), MoveKind.Normal⟩, ⟨(0, 1), (0, 3), MoveKind.Normal⟩,
   ⟨(1, 1), (1, 2), MoveKind.Normal⟩, ⟨(1, 1), (1, 3), MoveKind.Normal⟩,
   ⟨(2, 1), (2, 2), MoveKind.Normal⟩, ⟨(2, 1), (2, 3), MoveKind.Normal⟩,
   ⟨(3, 1), (3, 2), MoveKind.Normal⟩, ⟨(3, 1), (3, 3), MoveKind.Normal⟩,
   ⟨(4, 1), (4, 2), MoveKind.Normal⟩, ⟨(4, 1), (4, 3), MoveKind.Normal⟩,
   ⟨(5, 1), (5, 2), MoveKind.Normal⟩, ⟨(5, 1), (5, 3), MoveKind.Normal⟩,
   ⟨(6, 1), (6, 2), MoveKind.Normal⟩, ⟨(6, 1), (6, 3), MoveKind.Normal⟩,
   ⟨(7, 1), (7, 2), MoveKind.Normal⟩, ⟨(7, 1), (7, 3), MoveKind.Normal⟩]

/-! # Theorems

General helper lemmas first, then one theorem (plus witness or
counterexample) per spec claim. -/

@[simp]
theorem piece_at_set_self (b : Board) (sq : Square) (p : Option Piece) :
    piece_at (set_piece b sq p) sq = p := by
  simp [piece_at, set_piece]

theorem piece_at_set_ne (b : Board) (sq t : Square) (p : Option Piece) (h : t ≠ sq) :
    piece_at (set_piece b sq p) t = piece_at b t := by
  simp [piece_at, set_piece, h]

theorem rights_le_refl (a : CastlingRights) : rights_le a a :=
  ⟨id, id, id, id⟩

theorem rights_le_trans {a b c : CastlingRights} (h1 : rights_le a b) (h2 : rights_le b c) :
    rights_le a c :=
  ⟨fun h => h2.1 (h1.1 h), fun h => h2.2.1 (h1.2.1 h),
   fun h => h2.2.2.1 (h1.2.2.1 h), fun h => h2.2.2.2 (h1.2.2.2 h)⟩

theorem clear_castling_rights_le (c : CastlingRights) (col : Color) :
    rights_le (clear_castling_rights c col) c := by
  cases col <;> exact ⟨by simp [clear_castling_rights], by simp [clear_castling_rights],
    by simp [clear_castling_rights], by simp [clear_castling_rights]⟩

theorem update_move_fields (s : GameState) (p : Piece) (f : Square) :
    (update_castling_rights_on_move s p f).board = s.board ∧
    (update_castling_rights_on_move s p f).side_to_move = s.side_to_move ∧
    (update_castling_rights_on_move s p f).en_passant = s.en_passant ∧
    (update_castling_rights_on_move s p f).white_king = s.white_king ∧
    (update_castling_rights_on_move s p f).black_king = s.black_king ∧
    rights_le (update_castling_rights_on_move s p f).castling s.castling := by
  unfold update_castling_rights_on_move
  split
  · exact ⟨rfl, rfl, rfl, rfl, rfl, clear_castling_rights_le _ _⟩
  · split <;> exact ⟨rfl, rfl, rfl, rfl, rfl, by constructor <;> simp_all [rights_le]⟩
  · exact ⟨rfl, rfl, rfl, rfl, rfl, rights_le_refl _⟩

theorem update_capture_fields (s : GameState) (sq : Square) (p : Piece) :
    (update_castling_rights_on_capture s sq p).board = s.board ∧
    (update_castling_rights_on_capture s sq p).side_to_move = s.side_to_move ∧
    (update_castling_rights_on_capture s sq p).en_passant = s.en_passant ∧
    (update_castling_rights_on_capture s sq p).white_king = s.white_king ∧
    (update_castling_rights_on_capture s sq p).black_king = s.black_king ∧
    rights_le (update_castling_rights_on_capture s sq p).castling s.castling := by
  unfold update_castling_rights_on_capture
  split
  · exact ⟨rfl, rfl, rfl, rfl, rfl, rights_le_refl _⟩
  · split <;> exact ⟨rfl, rfl, rfl, rfl, rfl, by constructor <;> simp_all [rights_le]⟩

/-- All fields of `apply_finish` at once: the board is the written one,
the side flips, the king cache is untouched, rights only decrease, and
the en-passant target is the double-push square or nothing. -/
theorem apply_finish_fields (s1 : GameState) (mv : Move) (mp : Piece) (b : Board)
    (cs : Option Square) (cp : Option Piece) :
    (apply_finish s1 mv mp b cs cp).board = b ∧
    (apply_finish s1 mv mp b cs cp).side_to_move = s1.side_to_move.opposite ∧
    (apply_finish s1 mv mp b cs cp).white_king = s1.white_king ∧
    (apply_finish s1 mv mp b cs cp).black_king = s1.black_king ∧
    rights_le (apply_finish s1 mv mp b cs cp).castling s1.castling ∧
    (apply_finish s1 mv mp b cs cp).en_passant =
      (if mp.kind = PieceKind.Pawn ∧ mv.kind = MoveKind.Normal ∧ mv.fromSq.1 = mv.toSq.1 ∧
          ((mv.toSq.2 : Int) - (mv.fromSq.2 : Int)).natAbs = 2 then
        some (mv.fromSq.1, (mv.toSq.2 + mv.fromSq.2) / 2)
      else s1.en_passant) := by
  rcases cs with _ | sq <;> rcases cp with _ | p <;>
  · obtain ⟨h3b, h3s, h3e, h3w, h3k, h3r⟩ := update_move_fields { s1 with board := b } mp mv.fromSq
    unfold apply_finish
    first
      | (obtain ⟨h4b, h4s, h4e, h4w, h4k, h4r⟩ :=
          update_capture_fields
            (update_castling_rights_on_move { s1 with board := b } mp mv.fromSq) sq p
         simp only []
         split_ifs with h1 h2 h3 <;>
           refine ⟨by simp_all, by simp_all, by simp_all, by simp_all,
             by simpa using rights_le_trans h4r h3r, by simp_all⟩)
      | (simp only []
         split_ifs with h1 h2 h3 <;>
           refine ⟨by simp_all, by simp_all, by simp_all, by simp_all,
             by simpa using h3r, by simp_all⟩)

/-- Anatomy of a successful `apply_move_unchecked`. -/
theorem apply_move_unchecked_eq_some {s : GameState} {mv : Move} {s' : GameState}
    (h : apply_move_unchecked s mv = some s') :
    ∃ mp b cs cp,
      piece_at s.board mv.fromSq = some mp ∧
      apply_move_step { s with en_passant := none } mv mp = some (b, cs, cp) ∧
      s' = apply_finish { s with en_passant := none } mv mp b cs cp := by
  unfold apply_move_unchecked at h
  rcases hp : piece_at s.board mv.fromSq with _ | mp <;> rw [hp] at h
  · exact absurd h (by simp)
  · rcases hstep : apply_move_step { s with en_passant := none } mv mp with _ | ⟨b, cs, cp⟩ <;>
      simp only [hstep] at h
    · exact absurd h (by simp)
    · exact ⟨mp, b, cs, cp, rfl, hstep, by injection h with h2; exact h2.symm⟩

/-- If the moving piece and (for castles) the rook are present, the
board-write step succeeds. -/
theorem apply_move_step_isSome (s1 : GameState) (mv : Move) (mp : Piece)
    (hrook : ∀ c : Bool, mv.kind = (if c then MoveKind.CastleKingside else MoveKind.CastleQueenside) →
      piece_at s1.board ((if c then 7 else 0), home_rank mp.color) ≠ none) :
    (apply_move_step s1 mv mp).isSome := by
  unfold apply_move_step
  rcases mv with ⟨f, t, k⟩
  rcases k <;> simp only [Option.isSome_some]
  case CastleKingside =>
    have := hrook true rfl
    rcases mp with ⟨c, pk⟩
    rcases c <;> simp_all [home_rank] <;>
      rcases hq : piece_at s1.board _ with _ | r <;> simp_all
  case CastleQueenside =>
    have := hrook false rfl
    rcases mp with ⟨c, pk⟩
    rcases c <;> simp_all [home_rank] <;>
      rcases hq : piece_at s1.board _ with _ | r <;> simp_all

theorem filter_some_mem {α : Type} {p : α → Option Bool} {l r : List α}
    (h : filter_some p l = some r) {a : α} (ha : a ∈ r) : a ∈ l ∧ p a = some true := by
  induction l generalizing r with
  | nil =>
    injection h with h
    subst h
    cases ha
  | cons x xs ih =>
    unfold filter_some at h
    rcases hx : p x with _ | b <;> rw [hx] at h
    · cases h
    · cases b
      · obtain ⟨hmem, hp⟩ := ih h ha
        exact ⟨List.mem_cons_of_mem _ hmem, hp⟩
      · rcases hrest : filter_some p xs with _ | r' <;> rw [hrest] at h
        · cases h
        · injection h with h
          subst h
          rcases List.mem_cons.mp ha with h | h
          · subst h
            exact ⟨List.mem_cons_self _ _, hx⟩
          · obtain ⟨hmem, hp⟩ := ih hrest h
            exact ⟨List.mem_cons_of_mem _ hmem, hp⟩

theorem filter_some_isSome {α : Type} {p : α → Option Bool} {l : List α}
    (h : ∀ a ∈ l, (p a).isSome) : (filter_some p l).isSome := by
  induction l with
  | nil => simp [filter_some]
  | cons x xs ih =>
    unfold filter_some
    rcases hx : p x with _ | b
    · have := h x (List.mem_cons_self _ _)
      rw [hx] at this
      cases this
    · have hrest := ih (fun a ha => h a (List.mem_cons_of_mem _ ha))
      cases b
      · exact hrest
      · rcases hr : filter_some p xs with _ | r
        · rw [hr] at hrest; cases hrest
        · simp

/-- What `is_move_legal == true` guarantees: the trial application ran
and left the mover out of check (and, for castles, the prechecks
passed). -/
theorem is_move_legal_true_spec {s : GameState} {mv : Move}
    (h : is_move_legal? s mv = some true) :
    (∃ s', apply_move_unchecked s mv = some s' ∧
      is_in_check? s' s.side_to_move = some false) ∧
    ((mv.kind = MoveKind.CastleKingside ∨ mv.kind = MoveKind.CastleQueenside) →
      is_in_check? s s.side_to_move = some false ∧
      king_passes_through_check s mv = false) := by
  have after : ∀ o : Option GameState,
      (match o with
       | none => none
       | some next =>
         match is_in_check? next s.side_to_move with
         | none => none
         | some c => some (!c) : Option Bool) = some true →
      ∃ s', o = some s' ∧ is_in_check? s' s.side_to_move = some false := by
    intro o ho
    rcases o with _ | s'
    · exact absurd ho (by simp)
    · have ho' : (match is_in_check? s' s.side_to_move with
        | none => none
        | some c => some (!c) : Option Bool) = some true := ho
      rcases hchk : is_in_check? s' s.side_to_move with _ | c <;> rw [hchk] at ho'
      · cases ho'
      · cases c
        · exact ⟨s', rfl, hchk⟩
        · cases ho'
  unfold is_move_legal? at h
  rcases hk : mv.kind with _ | _ | _ | _ | promo <;> rw [hk] at h <;>
    simp only [] at h
  case Normal | EnPassant | Promotion =>
    exact ⟨after _ h, by simp [hk]⟩
  case CastleKingside | CastleQueenside =>
    rcases hchk : is_in_check? s s.side_to_move with _ | c <;> rw [hchk] at h
    · cases h
    · cases c
      · rcases hpass : king_passes_through_check s mv with _ | _ <;> rw [hpass] at h
        · refine ⟨after _ h, fun _ => ⟨?_, ?_⟩⟩ <;> simp [hchk, hpass]
        · cases h
      · cases h

/-- `is_move_legal == true` in particular means the trial application
succeeded, hence so does the real one. -/
theorem is_move_legal_true_apply_isSome {s : GameState} {mv : Move}
    (h : is_move_legal? s mv = some true) : (apply_move_unchecked s mv).isSome := by
  obtain ⟨s', hap, _⟩ := (is_move_legal_true_spec h).1
  rw [hap]
  rfl

theorem exists_some_some {α : Type} (o : Option (Option α))
    (h : o.map Option.isSome = some true) : ∃ x, o = some (some x) := by
  rcases o with _ | o
  · cases h
  · rcases o with _ | x
    · cases h
    · exact ⟨x, rfl⟩

/-- C8: for the standard initial position produced by `GameState::new`,
`legal_moves` returns exactly 20 moves: the sixteen single and double
pawn pushes plus the four knight moves b1a3, b1c3, g1f3, g1h3. -/
theorem initial_position_twenty_legal_moves :
    legal_moves? GameState.new = some initial_legal_list ∧
    initial_legal_list.length = 20 ∧
    (∀ f, f < 8 →
      (⟨(f, 1), (f, 2), MoveKind.Normal⟩ : Move) ∈ initial_legal_list ∧
      (⟨(f, 1), (f, 3), MoveKind.Normal⟩ : Move) ∈ initial_legal_list) ∧
    (⟨(1, 0), (0, 2), MoveKind.Normal⟩ : Move) ∈ initial_legal_list ∧
    (⟨(1, 0), (2, 2), MoveKind.Normal⟩ : Move) ∈ initial_legal_list ∧
    (⟨(6, 0), (5, 2), MoveKind.Normal⟩ : Move) ∈ initial_legal_list ∧
    (⟨(6, 0), (7, 2), MoveKind.Normal⟩ : Move) ∈ initial_legal_list := by
  decide

/-- C1, counterexample: at the (reachable) initial position the move
a2a5 — a pawn teleporting three ranks, which the generator never emits
and `legal_moves` does not contain — is nevertheless accepted by
`Game::make_move`, because `make_move` only consults `is_move_legal`
(king safety), not membership in `legal_moves`. -/
theorem make_move_accepts_non_candidate :
    (make_move GameState.new ⟨(0, 1), (0, 4), MoveKind.Normal⟩).map Option.isSome = some true ∧
    legal_moves? GameState.new = some initial_legal_list ∧
    (⟨(0, 1), (0, 4), MoveKind.Normal⟩ : Move) ∉ initial_legal_list := by
  refine ⟨by decide, by decide, by decide⟩

/-- C1, amended: `Game::make_move(mv)` succeeds exactly when
`is_move_legal` accepts `mv` (for generator candidates this coincides
with membership in `legal_moves`, but other king-safe moves are also
accepted); when `is_move_legal` rejects, it reports the illegal-move
failure and leaves the position unchanged; when the trial application
inside the check panics, so does `make_move`. -/
theorem make_move_follows_is_move_legal (s : GameState) (mv : Move) :
    (is_move_legal? s mv = some true →
      ∃ s', make_move s mv = some (some s') ∧ apply_move_unchecked s mv = some s') ∧
    (is_move_legal? s mv = some false → make_move s mv = some none) ∧
    (is_move_legal? s mv = none → make_move s mv = none) := by
  refine ⟨?_, ?_, ?_⟩
  · intro h
    obtain ⟨s', hap, _⟩ := (is_move_legal_true_spec h).1
    refine ⟨s', ?_, hap⟩
    unfold make_move
    rw [h, hap]
    rfl
  · intro h
    unfold make_move
    rw [h]
  · intro h
    unfold make_move
    rw [h]

theorem make_move_follows_is_move_legal_witness :
    ∃ s', make_move GameState.new ⟨(4, 1), (4, 3), MoveKind.Normal⟩ = some (some s') ∧
      apply_move_unchecked GameState.new ⟨(4, 1), (4, 3), MoveKind.Normal⟩ = some s' := by
  exact (make_move_follows_is_move_legal GameState.new ⟨(4, 1), (4, 3), MoveKind.Normal⟩).1
    (by decide)

/-- C2, counterexample: on a two-king board whose king cache is correct
(White king on e1, tracked square e1), applying the King move e1d1 via
`apply_move_unchecked` leaves `white_king` at e1 while the king now
stands on d1 and e1 is empty — the cache is not maintained. -/
theorem king_cache_not_maintained :
    state_kings_only.white_king = (4, 0) ∧
    piece_at state_kings_only.board (4, 0) = some ⟨Color.White, PieceKind.King⟩ ∧
    (apply_move_unchecked state_kings_only ⟨(4, 0), (3, 0), MoveKind.Normal⟩).map
      (fun s' => (s'.white_king, piece_at s'.board (4, 0), piece_at s'.board (3, 0))) =
      some ((4, 0), none, some ⟨Color.White, PieceKind.King⟩) := by
  refine ⟨by decide, by decide, by decide⟩

/-- C2, amended: `apply_move_unchecked` never writes the tracked king
squares; after any successful application (King moves and castles
included) both cache fields are unchanged, so the cached square of a
king that just moved is stale.  (The attack oracle's `is_in_check`
locates kings by scanning the board with `find_king` instead of reading
the cache.) -/
theorem apply_move_unchecked_preserves_king_cache (s : GameState) (mv : Move) (s' : GameState)
    (h : apply_move_unchecked s mv = some s') :
    s'.white_king = s.white_king ∧ s'.black_king = s.black_king := by
  obtain ⟨mp, b, cs, cp, hp, hstep, hs'⟩ := apply_move_unchecked_eq_some h
  subst hs'
  have hfld := apply_finish_fields { s with en_passant := none } mv mp b cs cp
  exact ⟨hfld.2.2.1, hfld.2.2.2.1⟩

theorem apply_move_unchecked_preserves_king_cache_witness :
    ∃ s', apply_move_unchecked state_kings_only ⟨(4, 0), (3, 0), MoveKind.Normal⟩ = some s' ∧
      s'.white_king = state_kings_only.white_king ∧
      s'.black_king = state_kings_only.black_king := by
  have hsome : (apply_move_unchecked state_kings_only ⟨(4, 0), (3, 0), MoveKind.Normal⟩).isSome := by
    decide
  obtain ⟨s', hs''⟩ := Option.isSome_iff_exists.mp hsome
  exact ⟨s', hs'', apply_move_unchecked_preserves_king_cache _ _ _ hs''⟩

/-- C3: every move delivered by `legal_moves` applies successfully and
yields a position in which the side that moved (the original side to
move) is not in check. -/
theorem legal_moves_leave_mover_out_of_check (s : GameState) (mv : Move) (l : List Move)
    (hl : legal_moves? s = some l) (hm : mv ∈ l) :
    ∃ s', apply_move_unchecked s mv = some s' ∧
      is_in_check? s' s.side_to_move = some false := by
  obtain ⟨_, hleg⟩ := filter_some_mem hl hm
  exact (is_move_legal_true_spec hleg).1

theorem legal_moves_leave_mover_out_of_check_witness :
    ∃ s', apply_move_unchecked GameState.new ⟨(4, 1), (4, 3), MoveKind.Normal⟩ = some s' ∧
      is_in_check? s' GameState.new.side_to_move = some false := by
  exact legal_moves_leave_mover_out_of_check GameState.new ⟨(4, 1), (4, 3), MoveKind.Normal⟩
    initial_legal_list (by decide) (by decide)

/-- C6: after a successful `apply_move_unchecked`, the resulting
en-passant target is `some x` exactly when the move was a Normal move
of a pawn advancing two ranks on one file, and then `x` is the
intermediate square; after every other move the target is `none`. -/
theorem en_passant_target_rule (s : GameState) (mv : Move) (s' : GameState)
    (_hf : inBoard mv.fromSq) (_ht : inBoard mv.toSq)
    (h : apply_move_unchecked s mv = some s') :
    ∀ x : Square, s'.en_passant = some x ↔
      ((∃ p, piece_at s.board mv.fromSq = some p ∧ p.kind = PieceKind.Pawn) ∧
        mv.kind = MoveKind.Normal ∧ mv.fromSq.1 = mv.toSq.1 ∧
        ((mv.toSq.2 : Int) - (mv.fromSq.2 : Int)).natAbs = 2 ∧
        x = (mv.fromSq.1, (mv.toSq.2 + mv.fromSq.2) / 2)) := by
  obtain ⟨mp, b, cs, cp, hp, hstep, hs'⟩ := apply_move_unchecked_eq_some h
  subst hs'
  have hef := (apply_finish_fields { s with en_passant := none } mv mp b cs cp).2.2.2.2.2
  intro x
  rw [hef]
  split_ifs with hcond
  · obtain ⟨h1, h2, h3, h4⟩ := hcond
    constructor
    · intro hx
      injection hx with hx
      exact ⟨⟨mp, hp, h1⟩, h2, h3, h4, hx.symm⟩
    · rintro ⟨_, _, _, _, hx⟩
      rw [hx]
  · constructor
    · intro hx
      exact hx.elim
    · rintro ⟨⟨p, hp2, h1⟩, h2, h3, h4, _⟩
      rw [hp] at hp2
      injection hp2 with hp2
      exact absurd ⟨hp2 ▸ h1, h2, h3, h4⟩ hcond

theorem en_passant_target_rule_witness :
    inBoard ((4, 1) : Square) ∧ inBoard ((4, 3) : Square) ∧
    ∃ s', apply_move_unchecked GameState.new ⟨(4, 1), (4, 3), MoveKind.Normal⟩ = some s' ∧
      s'.en_passant = some (4, 2) := by
  refine ⟨by decide, by decide, ?_⟩
  have hsome : (apply_move_unchecked GameState.new ⟨(4, 1), (4, 3), MoveKind.Normal⟩).isSome := by
    decide
  obtain ⟨s', hs'⟩ := Option.isSome_iff_exists.mp hsome
  refine ⟨s', hs', ?_⟩
  exact (en_passant_target_rule GameState.new _ s' (by decide) (by decide) hs' (4, 2)).mpr
    ⟨⟨⟨Color.White, PieceKind.Pawn⟩, by decide, rfl⟩, rfl, rfl, by decide, rfl⟩

/-- C7: castling rights are monotone non-increasing under
`apply_move_unchecked`: every right set afterwards was set before. -/
theorem castling_rights_monotone (s : GameState) (mv : Move) (s' : GameState)
    (h : apply_move_unchecked s mv = some s') :
    rights_le s'.castling s.castling := by
  obtain ⟨mp, b, cs, cp, hp, hstep, hs'⟩ := apply_move_unchecked_eq_some h
  subst hs'
  exact (apply_finish_fields { s with en_passant := none } mv mp b cs cp).2.2.2.2.1

theorem castling_rights_monotone_witness :
    ∃ s', apply_move_unchecked GameState.new ⟨(4, 1), (4, 3), MoveKind.Normal⟩ = some s' ∧
      rights_le s'.castling GameState.new.castling := by
  have hsome : (apply_move_unchecked GameState.new ⟨(4, 1), (4, 3), MoveKind.Normal⟩).isSome := by
    decide
  obtain ⟨s', hs'⟩ := Option.isSome_iff_exists.mp hsome
  exact ⟨s', hs', castling_rights_monotone _ _ _ hs'⟩

theorem insert_by_key_append {α : Type} (k : α → Nat) (a : α) (l1 l2 : List α)
    (h1 : ∀ b ∈ l1, k b < k a) (h2 : ∀ b ∈ l2, ¬ k b < k a) :
    insert_by_key k a (l1 ++ l2) = l1 ++ a :: l2 := by
  induction l1 with
  | nil =>
    cases l2 with
    | nil => rfl
    | cons c cs =>
      show insert_by_key k a (c :: cs) = a :: c :: cs
      rw [insert_by_key, if_neg (h2 c (List.mem_cons_self _ _))]
  | cons c cs ih =>
    show insert_by_key k a (c :: (cs ++ l2)) = c :: (cs ++ a :: l2)
    rw [insert_by_key, if_pos (h1 c (List.mem_cons_self _ _))]
    exact congrArg (c :: ·) (ih (fun b hb => h1 b (List.mem_cons_of_mem _ hb)))

theorem sort_by_key_partition {α : Type} (k : α → Nat) (l : List α)
    (hk : ∀ a ∈ l, k a ≤ 3) :
    sort_by_key k l =
      (l.filter fun a => k a == 0) ++ ((l.filter fun a => k a == 1) ++
      ((l.filter fun a => k a == 2) ++ (l.filter fun a => k a == 3))) := by
  induction l with
  | nil => rfl
  | cons a as ih =>
    have has : ∀ b ∈ as, k b ≤ 3 := fun b hb => hk b (List.mem_cons_of_mem _ hb)
    have hmem : ∀ i : Nat, ∀ b ∈ as.filter (fun x => k x == i), k b = i := by
      intro i b hb
      have h2 := (List.mem_filter.mp hb).2
      simpa using h2
    have hsort : sort_by_key k (a :: as) = insert_by_key k a (sort_by_key k as) := rfl
    rw [hsort, ih has]
    have ha3 := hk a (List.mem_cons_self _ _)
    have hsplit : k a = 0 ∨ k a = 1 ∨ k a = 2 ∨ k a = 3 := by omega
    rcases hsplit with ka | ka | ka | ka
    · have h := insert_by_key_append k a []
        ((as.filter fun x => k x == 0) ++ ((as.filter fun x => k x == 1) ++
          ((as.filter fun x => k x == 2) ++ (as.filter fun x => k x == 3))))
        (by simp)
        (by
          intro b hb
          omega)
      rw [List.nil_append] at h
      rw [h]
      simp [List.filter_cons, ka]
    · have h := insert_by_key_append k a (as.filter fun x => k x == 0)
        ((as.filter fun x => k x == 1) ++
          ((as.filter fun x => k x == 2) ++ (as.filter fun x => k x == 3)))
        (by
          intro b hb
          have := hmem 0 b hb
          omega)
        (by
          intro b hb
          rcases List.mem_append.mp hb with hb | hb
          · have := hmem 1 b hb
            omega
          · rcases List.mem_append.mp hb with hb | hb
            · have := hmem 2 b hb
              omega
            · have := hmem 3 b hb
              omega)
      rw [h]
      simp [List.filter_cons, ka]
    · have h := insert_by_key_append k a
        ((as.filter fun x => k x == 0) ++ (as.filter fun x => k x == 1))
        ((as.filter fun x => k x == 2) ++ (as.filter fun x => k x == 3))
        (by
          intro b hb
          rcases List.mem_append.mp hb with hb | hb
          · have := hmem 0 b hb
            omega
          · have := hmem 1 b hb
            omega)
        (by
          intro b hb
          rcases List.mem_append.mp hb with hb | hb
          · have := hmem 2 b hb
            omega
          · have := hmem 3 b hb
            omega)
      rw [List.append_assoc] at h
      rw [h]
      simp [List.filter_cons, ka]
    · have h := insert_by_key_append k a
        ((as.filter fun x => k x == 0) ++ ((as.filter fun x => k x == 1) ++
          (as.filter fun x => k x == 2)))
        (as.filter fun x => k x == 3)
        (by
          intro b hb
          rcases List.mem_append.mp hb with hb | hb
          · have := hmem 0 b hb
            omega
          · rcases List.mem_append.mp hb with hb | hb
            · have := hmem 1 b hb
              omega
            · have := hmem 2 b hb
              omega)
        (by
          intro b hb
          have := hmem 3 b hb
          omega)
      rw [List.append_assoc, List.append_assoc] at h
      rw [h]
      simp [List.filter_cons, ka]

/-- The order key in terms of the promotion/capture classification. -/
theorem move_order_key_eq (s : GameState) (mv : Move) :
    move_order_key s mv =
      if is_promotion_mv mv then (if is_capture_mv s mv then 0 else 1)
      else (if is_capture_mv s mv then 2 else 3) := by
  rcases mv with ⟨f, t, k⟩
  rcases k with _ | _ | _ | _ | promo <;>
    rcases ho : piece_at s.board t with _ | p <;>
    simp [move_order_key, is_promotion_mv, is_capture_mv, ho]

/-- C9: `ordered_candidates` is exactly the generator's output stably
sorted by the key: promotion captures first, then quiet promotions,
then non-promotion captures, then the rest — en passant always counts
as a capture, castles never do, Normal/Promotion moves capture iff the
destination is occupied — and inside each group the generator's
emission order is preserved.  (Stated as: the result is the
concatenation of the four subsequences of `generate_candidates` in that
class order, each kept in original order.) -/
theorem ordered_candidates_stable_partition (s : GameState) :
    ordered_candidates s =
      ((generate_candidates s).filter fun mv => is_promotion_mv mv && is_capture_mv s mv) ++
      (((generate_candidates s).filter fun mv => is_promotion_mv mv && !is_capture_mv s mv) ++
      (((generate_candidates s).filter fun mv => !is_promotion_mv mv && is_capture_mv s mv) ++
      ((generate_candidates s).filter fun mv => !is_promotion_mv mv && !is_capture_mv s mv))) := by
  have hle : ∀ mv ∈ generate_candidates s, move_order_key s mv ≤ 3 := by
    intro mv _
    rw [move_order_key_eq]
    split_ifs <;> omega
  have h := sort_by_key_partition (move_order_key s) (generate_candidates s) hle
  have e0 : (generate_candidates s).filter (fun mv => move_order_key s mv == 0) =
      (generate_candidates s).filter (fun mv => is_promotion_mv mv && is_capture_mv s mv) := by
    refine List.filter_congr ?_
    intro mv _
    rw [move_order_key_eq]
    cases hpr : is_promotion_mv mv <;> cases hca : is_capture_mv s mv <;> simp
  have e1 : (generate_candidates s).filter (fun mv => move_order_key s mv == 1) =
      (generate_candidates s).filter (fun mv => is_promotion_mv mv && !is_capture_mv s mv) := by
    refine List.filter_congr ?_
    intro mv _
    rw [move_order_key_eq]
    cases hpr : is_promotion_mv mv <;> cases hca : is_capture_mv s mv <;> simp
  have e2 : (generate_candidates s).filter (fun mv => move_order_key s mv == 2) =
      (generate_candidates s).filter (fun mv => !is_promotion_mv mv && is_capture_mv s mv) := by
    refine List.filter_congr ?_
    intro mv _
    rw [move_order_key_eq]
    cases hpr : is_promotion_mv mv <;> cases hca : is_capture_mv s mv <;> simp
  have e3 : (generate_candidates s).filter (fun mv => move_order_key s mv == 3) =
      (generate_candidates s).filter (fun mv => !is_promotion_mv mv && !is_capture_mv s mv) := by
    refine List.filter_congr ?_
    intro mv _
    rw [move_order_key_eq]
    cases hpr : is_promotion_mv mv <;> cases hca : is_capture_mv s mv <;> simp
  show sort_by_key (move_order_key s) (generate_candidates s) = _
  rw [h, e0, e1, e2, e3]

theorem inBoard_of_in_bounds {f r : Int} (h : in_bounds f r = true) :
    inBoard (f.toNat, r.toNat) := by
  unfold in_bounds at h
  simp only [Bool.and_eq_true, decide_eq_true_eq] at h
  obtain ⟨⟨⟨h0, h1⟩, h2⟩, h3⟩ := h
  constructor <;> omega

theorem mem_add_promotion_moves {fromSq toSq : Square} {mv : Move}
    (h : mv ∈ add_promotion_moves fromSq toSq) :
    ∃ promo, mv = ⟨fromSq, toSq, MoveKind.Promotion promo⟩ := by
  unfold add_promotion_moves at h
  rw [List.mem_map] at h
  obtain ⟨promo, _, hmv⟩ := h
  exact ⟨promo, hmv.symm⟩

theorem mem_add_step_move {s : GameState} {piece : Piece} {fromSq toSq : Square} {mv : Move}
    (h : mv ∈ add_step_move s piece fromSq toSq) :
    mv = ⟨fromSq, toSq, MoveKind.Normal⟩ ∧
      ∀ t, piece_at s.board toSq = some t → t.color ≠ piece.color := by
  unfold add_step_move at h
  rcases ho : piece_at s.board toSq with _ | target <;> rw [ho] at h
  · have h' : mv ∈ [(⟨fromSq, toSq, MoveKind.Normal⟩ : Move)] := h
    simp only [List.mem_singleton] at h'
    exact ⟨h', fun t ht => by cases ht⟩
  · have h' : mv ∈ (if target.color ≠ piece.color then
        [(⟨fromSq, toSq, MoveKind.Normal⟩ : Move)] else []) := h
    split_ifs at h' with hc
    · simp only [List.mem_singleton] at h'
      refine ⟨h', fun t ht => ?_⟩
      injection ht with ht
      subst ht
      exact hc
    · cases h'

theorem mem_gen_slider_ray {s : GameState} {piece : Piece} {fromSq : Square} {df dr : Int} :
    ∀ (fuel : Nat) (nf nr : Int) (mv : Move), mv ∈ gen_slider_ray s piece fromSq df dr nf nr fuel →
      mv.fromSq = fromSq ∧ mv.kind = MoveKind.Normal ∧ inBoard mv.toSq ∧
      (∀ t, piece_at s.board mv.toSq = some t → t.color ≠ piece.color) := by
  intro fuel
  induction fuel with
  | zero => intro nf nr mv h; cases h
  | succ n ih =>
    intro nf nr mv h
    rw [gen_slider_ray] at h
    split_ifs at h with hb
    · rcases ho : piece_at s.board (nf.toNat, nr.toNat) with _ | target <;>
        simp only [ho] at h
      · rcases List.mem_cons.mp h with h | h
        · subst h
          exact ⟨rfl, rfl, inBoard_of_in_bounds hb, fun t ht => by rw [ho] at ht; cases ht⟩
        · exact ih _ _ mv h
      · split_ifs at h with hc
        · simp only [List.mem_singleton] at h
          subst h
          refine ⟨rfl, rfl, inBoard_of_in_bounds hb, fun t ht => ?_⟩
          rw [ho] at ht
          injection ht with ht
          subst ht
          exact hc
        · cases h
    · cases h

theorem mem_gen_slider_moves {s : GameState} {fromSq : Square} {piece : Piece}
    {dirs : List (Int × Int)} {mv : Move} (h : mv ∈ gen_slider_moves s fromSq piece dirs) :
    mv.fromSq = fromSq ∧ mv.kind = MoveKind.Normal ∧ inBoard mv.toSq ∧
      (∀ t, piece_at s.board mv.toSq = some t → t.color ≠ piece.color) := by
  unfold gen_slider_moves at h
  rw [List.mem_flatMap] at h
  obtain ⟨d, _, h⟩ := h
  exact mem_gen_slider_ray _ _ _ mv h

theorem mem_gen_knight_moves {s : GameState} {fromSq : Square} {piece : Piece} {mv : Move}
    (h : mv ∈ gen_knight_moves s fromSq piece) :
    mv.fromSq = fromSq ∧ mv.kind = MoveKind.Normal ∧ inBoard mv.toSq ∧
      (∀ t, piece_at s.board mv.toSq = some t → t.color ≠ piece.color) := by
  unfold gen_knight_moves at h
  rw [List.mem_flatMap] at h
  obtain ⟨d, _, h⟩ := h
  have h' : mv ∈ (if in_bounds ((fromSq.1 : Int) + d.1) ((fromSq.2 : Int) + d.2) then
      add_step_move s piece fromSq
        (((fromSq.1 : Int) + d.1).toNat, ((fromSq.2 : Int) + d.2).toNat)
    else []) := h
  split_ifs at h' with hb
  · obtain ⟨hmv, hcond⟩ := mem_add_step_move h'
    subst hmv
    exact ⟨rfl, rfl, inBoard_of_in_bounds hb, hcond⟩
  · cases h'

theorem mem_gen_pawn_moves {s : GameState} {fromSq : Square} {piece : Piece} {mv : Move}
    (h : mv ∈ gen_pawn_moves s fromSq piece) :
    mv.fromSq = fromSq ∧
    ((mv.kind = MoveKind.Normal ∧ inBoard mv.toSq ∧
       (∀ t, piece_at s.board mv.toSq = some t → t.color ≠ piece.color)) ∨
     ((∃ promo, mv.kind = MoveKind.Promotion promo) ∧ inBoard mv.toSq ∧
       (∀ t, piece_at s.board mv.toSq = some t → t.color ≠ piece.color)) ∨
     (mv.kind = MoveKind.EnPassant ∧ s.en_passant = some mv.toSq ∧
       (mv.toSq.2 : Int) = (mv.fromSq.2 : Int) + pawn_dir piece.color)) := by
  rw [gen_pawn_moves] at h
  simp only [List.mem_append] at h
  rcases h with (h | h) | h
  · -- single and double pushes
    split_ifs at h <;>
      first
        | exact absurd h (List.not_mem_nil _)
        | exact (by assumption : False).elim
        | (obtain ⟨promo, hmv⟩ := mem_add_promotion_moves h
           subst hmv
           refine ⟨rfl, Or.inr (Or.inl ⟨⟨promo, rfl⟩, inBoard_of_in_bounds (by assumption), ?_⟩)⟩
           intro t ht
           rw [(by assumption : piece_at s.board _ = none)] at ht
           cases ht)
        | (simp only [List.mem_cons, List.mem_singleton, List.not_mem_nil, or_false] at h
           rcases h with hmv | hmv <;> subst hmv <;>
             exact ⟨rfl, Or.inl ⟨rfl, inBoard_of_in_bounds (by assumption),
               fun t ht => by simp_all⟩⟩)
        | (simp only [List.mem_singleton] at h
           subst h
           exact ⟨rfl, Or.inl ⟨rfl, inBoard_of_in_bounds (by assumption),
             fun t ht => by simp_all⟩⟩)
  · -- diagonal captures
    rw [List.mem_flatMap] at h
    obtain ⟨df, hdf, h⟩ := h
    split_ifs at h <;>
      first
        | exact absurd h (List.not_mem_nil _)
        | exact (by assumption : False).elim
        | (split at h <;>
            first
              | exact absurd h (List.not_mem_nil _)
              | (split_ifs at h <;>
                  first
                    | exact absurd h (List.not_mem_nil _)
                    | exact (by assumption : False).elim
                    | (obtain ⟨promo, hmv⟩ := mem_add_promotion_moves h
                       subst hmv
                       exact ⟨rfl, Or.inr (Or.inl ⟨⟨promo, rfl⟩,
                         inBoard_of_in_bounds (by assumption), fun t ht => by simp_all⟩)⟩)
                    | (simp only [List.mem_singleton] at h
                       subst h
                       exact ⟨rfl, Or.inl ⟨rfl, inBoard_of_in_bounds (by assumption),
                         fun t ht => by simp_all⟩⟩)))
  · -- en passant
    split at h <;>
      first
        | exact absurd h (List.not_mem_nil _)
        | (split_ifs at h <;>
            first
              | exact absurd h (List.not_mem_nil _)
              | (simp only [List.mem_singleton] at h
                 subst h
                 exact ⟨rfl, Or.inr (Or.inr ⟨rfl, by simp_all, by simp_all [pawn_dir]⟩)⟩))

theorem mem_gen_king_moves {s : GameState} {fromSq : Square} {piece : Piece} {mv : Move}
    (h : mv ∈ gen_king_moves s fromSq piece) :
    mv.fromSq = fromSq ∧
    ((mv.kind = MoveKind.Normal ∧ inBoard mv.toSq ∧
       (∀ t, piece_at s.board mv.toSq = some t → t.color ≠ piece.color)) ∨
     (mv.kind = MoveKind.CastleKingside ∧ fromSq = (4, home_rank piece.color) ∧
       mv.toSq = (6, home_rank piece.color) ∧
       piece_at s.board (5, home_rank piece.color) = none ∧
       piece_at s.board (6, home_rank piece.color) = none ∧
       piece_at s.board (7, home_rank piece.color) = some ⟨piece.color, PieceKind.Rook⟩) ∨
     (mv.kind = MoveKind.CastleQueenside ∧ fromSq = (4, home_rank piece.color) ∧
       mv.toSq = (2, home_rank piece.color) ∧
       piece_at s.board (1, home_rank piece.color) = none ∧
       piece_at s.board (2, home_rank piece.color) = none ∧
       piece_at s.board (3, home_rank piece.color) = none ∧
       piece_at s.board (0, home_rank piece.color) = some ⟨piece.color, PieceKind.Rook⟩)) := by
  rw [gen_king_moves] at h
  simp only [List.mem_append] at h
  rcases h with h | h
  · rw [List.mem_flatMap] at h
    obtain ⟨d, _, h⟩ := h
    split_ifs at h with hb
    · obtain ⟨hmv, hcond⟩ := mem_add_step_move h
      subst hmv
      exact ⟨rfl, Or.inl ⟨rfl, inBoard_of_in_bounds hb, hcond⟩⟩
    · cases h
  · rcases hcol : piece.color with _ | _ <;> simp only [hcol] at h <;>
      simp only [List.mem_append] at h <;>
      rcases h with h | h <;>
      split_ifs at h with h1 h2 <;>
        first
          | exact absurd h (List.not_mem_nil _)
          | (simp only [List.mem_singleton] at h
             subst h
             refine ⟨rfl, Or.inr (Or.inl ⟨rfl, ?_, ?_, ?_, ?_, ?_⟩)⟩ <;> simp_all [home_rank])
          | (simp only [List.mem_singleton] at h
             subst h
             refine ⟨rfl, Or.inr (Or.inr ⟨rfl, ?_, ?_, ?_, ?_, ?_, ?_⟩)⟩ <;> simp_all [home_rank])

/-- Everything membership in the candidate generator guarantees. -/
theorem mem_generate_candidates {s : GameState} {mv : Move}
    (h : mv ∈ generate_candidates s) : cand_inv s mv := by
  rw [generate_candidates] at h
  rw [List.mem_flatMap] at h
  obtain ⟨rank, hrank, h⟩ := h
  rw [List.mem_flatMap] at h
  obtain ⟨file, hfile, h⟩ := h
  rw [List.mem_range] at hrank hfile
  rcases ho : piece_at s.board (file, rank) with _ | piece <;> simp only [ho] at h
  · cases h
  · split_ifs at h with hcolor
    · have hfr : inBoard ((file, rank) : Square) := ⟨hfile, hrank⟩
      rcases hkind : piece.kind with _ | _ | _ | _ | _ | _ <;> simp only [hkind] at h
      · -- Pawn
        obtain ⟨hfrom, harm⟩ := mem_gen_pawn_moves h
        refine ⟨piece, by rw [hfrom]; exact ho, hcolor, by rw [hfrom]; exact hfr, ?_⟩
        rcases harm with ⟨hk, hib, hcond⟩ | ⟨⟨promo, hk⟩, hib, hcond⟩ | ⟨hk, hep, hrel⟩
        · rw [hk]
          exact ⟨hib, hcond⟩
        · rw [hk]
          exact ⟨hkind, hib, hcond⟩
        · rw [hk]
          exact ⟨hep, hkind, hrel⟩
      · -- Knight
        obtain ⟨hfrom, hk, hib, hcond⟩ := mem_gen_knight_moves h
        refine ⟨piece, by rw [hfrom]; exact ho, hcolor, by rw [hfrom]; exact hfr, ?_⟩
        rw [hk]
        exact ⟨hib, hcond⟩
      · -- Bishop
        obtain ⟨hfrom, hk, hib, hcond⟩ := mem_gen_slider_moves h
        refine ⟨piece, by rw [hfrom]; exact ho, hcolor, by rw [hfrom]; exact hfr, ?_⟩
        rw [hk]
        exact ⟨hib, hcond⟩
      · -- Rook
        obtain ⟨hfrom, hk, hib, hcond⟩ := mem_gen_slider_moves h
        refine ⟨piece, by rw [hfrom]; exact ho, hcolor, by rw [hfrom]; exact hfr, ?_⟩
        rw [hk]
        exact ⟨hib, hcond⟩
      · -- Queen
        obtain ⟨hfrom, hk, hib, hcond⟩ := mem_gen_slider_moves h
        refine ⟨piece, by rw [hfrom]; exact ho, hcolor, by rw [hfrom]; exact hfr, ?_⟩
        rw [hk]
        exact ⟨hib, hcond⟩
      · -- King
        obtain ⟨hfrom, harm⟩ := mem_gen_king_moves h
        refine ⟨piece, by rw [hfrom]; exact ho, hcolor, by rw [hfrom]; exact hfr, ?_⟩
        rcases harm with ⟨hk, hib, hcond⟩ | ⟨hk, hf4, hto, h5, h6, h7⟩ |
          ⟨hk, hf4, hto, h1, h2, h3, h0⟩
        · rw [hk]
          exact ⟨hib, hcond⟩
        · rw [hk]
          exact ⟨hkind, hfrom.trans hf4, hto, h5, h6, h7⟩
        · rw [hk]
          exact ⟨hkind, hfrom.trans hf4, hto, h1, h2, h3, h0⟩
    · cases h

/-- C4: a generator candidate that passed the legality filter is applied
by `apply_move_unchecked` without reaching any panic: the moving-piece
lookup and (for castles) the rook lookup succeed, and the move's squares
are valid board indices.  (The en-passant target of a well-formed
position is a board square; the generator copies it verbatim into the
move, hence the hypothesis.) -/
theorem candidate_apply_never_fails (s : GameState) (mv : Move)
    (hep : ∀ e, s.en_passant = some e → inBoard e)
    (hm : mv ∈ generate_candidates s)
    (_hleg : is_move_legal? s mv = some true) :
    (∃ s', apply_move_unchecked s mv = some s') ∧ inBoard mv.fromSq ∧ inBoard mv.toSq := by
  obtain ⟨piece, hp, hcolor, hfb, harm⟩ := mem_generate_candidates hm
  refine ⟨?_, hfb, ?_⟩
  · have hrook : ∀ c : Bool,
        mv.kind = (if c then MoveKind.CastleKingside else MoveKind.CastleQueenside) →
        piece_at ({ s with en_passant := none } : GameState).board
          ((if c then 7 else 0), home_rank piece.color) ≠ none := by
      intro c hc
      cases c
      · rw [if_neg (by simp)] at hc
        rw [hc] at harm
        obtain ⟨_, _, _, _, _, _, h0⟩ := harm
        intro hcontra
        have hcontra' : piece_at s.board (0, home_rank piece.color) = none := hcontra
        rw [h0] at hcontra'
        cases hcontra'
      · rw [if_pos rfl] at hc
        rw [hc] at harm
        obtain ⟨_, _, _, _, _, h7⟩ := harm
        intro hcontra
        have hcontra' : piece_at s.board (7, home_rank piece.color) = none := hcontra
        rw [h7] at hcontra'
        cases hcontra'
    have hstep := apply_move_step_isSome { s with en_passant := none } mv piece hrook
    obtain ⟨⟨b, cs, cp⟩, hs⟩ := Option.isSome_iff_exists.mp hstep
    unfold apply_move_unchecked
    rw [hp]
    show ∃ s', (match apply_move_step { s with en_passant := none } mv piece with
      | none => none
      | some (b, captured_square, captured_piece) =>
        some (apply_finish { s with en_passant := none } mv piece b captured_square
          captured_piece)) = some s'
    rw [hs]
    exact ⟨_, rfl⟩
  · rcases hk : mv.kind with _ | _ | _ | _ | promo <;> rw [hk] at harm
    · exact harm.1
    · exact hep mv.toSq harm.1
    · rw [harm.2.2.1]
      rcases piece.color <;> simp [home_rank, inBoard]
    · rw [harm.2.2.1]
      rcases piece.color <;> simp [home_rank, inBoard]
    · exact harm.2.1

theorem candidate_apply_never_fails_witness :
    (∃ s', apply_move_unchecked GameState.new ⟨(4, 1), (4, 3), MoveKind.Normal⟩ = some s') ∧
    inBoard ((4, 1) : Square) ∧ inBoard ((4, 3) : Square) := by
  exact candidate_apply_never_fails GameState.new ⟨(4, 1), (4, 3), MoveKind.Normal⟩
    (fun e he => by cases he) (by decide) (by decide)

theorem apply_move_step_normal (s1 : GameState) (mfrom mto : Square) (piece : Piece) :
    apply_move_step s1 ⟨mfrom, mto, MoveKind.Normal⟩ piece =
      some (set_piece (set_piece s1.board mfrom none) mto (some piece),
        if (piece_at s1.board mto).isSome then some mto else none,
        piece_at s1.board mto) := rfl

theorem apply_move_step_promotion (s1 : GameState) (mfrom mto : Square) (piece : Piece)
    (promo : PieceKind) :
    apply_move_step s1 ⟨mfrom, mto, MoveKind.Promotion promo⟩ piece =
      some (set_piece (set_piece s1.board mfrom none) mto (some ⟨piece.color, promo⟩),
        if (piece_at s1.board mto).isSome then some mto else none,
        piece_at s1.board mto) := rfl

theorem apply_move_step_en_passant (s1 : GameState) (mfrom mto : Square) (piece : Piece) :
    apply_move_step s1 ⟨mfrom, mto, MoveKind.EnPassant⟩ piece =
      some (set_piece (set_piece (set_piece s1.board (mto.1, mfrom.2) none) mfrom none)
        mto (some piece),
        some (mto.1, mfrom.2), piece_at s1.board (mto.1, mfrom.2)) := rfl

theorem apply_move_step_castle_ks (s1 : GameState) (mfrom mto : Square) (pc : Color)
    (pk : PieceKind) (rook : Piece)
    (hr : piece_at s1.board (7, home_rank pc) = some rook) :
    apply_move_step s1 ⟨mfrom, mto, MoveKind.CastleKingside⟩ ⟨pc, pk⟩ =
      some (set_piece (set_piece (set_piece (set_piece s1.board mfrom none)
        (6, home_rank pc) (some ⟨pc, pk⟩)) (7, home_rank pc) none)
        (5, home_rank pc) (some rook), none, none) := by
  rcases pc <;> simp_all [apply_move_step, home_rank]

theorem apply_move_step_castle_qs (s1 : GameState) (mfrom mto : Square) (pc : Color)
    (pk : PieceKind) (rook : Piece)
    (hr : piece_at s1.board (0, home_rank pc) = some rook) :
    apply_move_step s1 ⟨mfrom, mto, MoveKind.CastleQueenside⟩ ⟨pc, pk⟩ =
      some (set_piece (set_piece (set_piece (set_piece s1.board mfrom none)
        (2, home_rank pc) (some ⟨pc, pk⟩)) (0, home_rank pc) none)
        (3, home_rank pc) (some rook), none, none) := by
  rcases pc <;> simp_all [apply_move_step, home_rank]

theorem mem_all_squares {sq : Square} : sq ∈ all_squares ↔ inBoard sq := by
  rcases sq with ⟨f, r⟩
  unfold all_squares inBoard
  simp only [List.mem_flatMap, List.mem_map, List.mem_range, Prod.mk.injEq]
  constructor
  · rintro ⟨rank, hr, file, hf, hfe, hre⟩
    subst hfe
    subst hre
    exact ⟨hf, hr⟩
  · rintro ⟨hf, hr⟩
    exact ⟨r, hr, f, hf, rfl, rfl⟩

theorem is_in_check?_isSome {s : GameState} {c : Color}
    (h : ∃ sq ∈ all_squares, piece_at s.board sq = some ⟨c, PieceKind.King⟩) :
    (is_in_check? s c).isSome := by
  obtain ⟨sq, hmem, hsq⟩ := h
  have hs : (all_squares.find?
      (fun t => piece_at s.board t == some (⟨c, PieceKind.King⟩ : Piece))).isSome :=
    List.find?_isSome.mpr ⟨sq, hmem, by rw [hsq]; simp⟩
  unfold is_in_check? find_king
  rcases hfind : all_squares.find?
      (fun t => piece_at s.board t == some (⟨c, PieceKind.King⟩ : Piece)) with _ | k
  · rw [hfind] at hs
    cases hs
  · rfl

theorem home_rank_lt (c : Color) : home_rank c < 8 := by
  unfold home_rank
  split_ifs <;> omega

/-- Forward computation of `apply_move_unchecked` from its two lookups. -/
theorem apply_move_unchecked_eq (s : GameState) (mv : Move) (piece : Piece)
    (hp : piece_at s.board mv.fromSq = some piece)
    {b : Board} {cs : Option Square} {cp : Option Piece}
    (hstep : apply_move_step { s with en_passant := none } mv piece = some (b, cs, cp)) :
    apply_move_unchecked s mv =
      some (apply_finish { s with en_passant := none } mv piece b cs cp) := by
  unfold apply_move_unchecked
  rw [hp]
  show (match apply_move_step { s with en_passant := none } mv piece with
    | none => none
    | some (b, captured_square, captured_piece) =>
      some (apply_finish { s with en_passant := none } mv piece b captured_square
        captured_piece)) = _
  rw [hstep]

/-- Applying any generator candidate succeeds and keeps a king of the
moving side on the board, provided the mover's king is unique and the
en-passant target (if any) does not name the king's square nor make the
en-passant capture square the king's square. -/
theorem candidate_apply_preserves_king (s : GameState) (mv : Move) (ksq : Square)
    (hksq : ksq ∈ all_squares)
    (hk : piece_at s.board ksq = some ⟨s.side_to_move, PieceKind.King⟩)
    (hprov : ∀ ep, s.en_passant = some ep → ep ≠ ksq ∧
      ∀ r : Nat, ((r : Int) + pawn_dir s.side_to_move = (ep.2 : Int)) → (ep.1, r) ≠ ksq)
    (hm : mv ∈ generate_candidates s) :
    ∃ s', apply_move_unchecked s mv = some s' ∧
      ∃ ksq', ksq' ∈ all_squares ∧
        piece_at s'.board ksq' = some ⟨s.side_to_move, PieceKind.King⟩ := by
  obtain ⟨piece, hp, hcolor, hfb, harm⟩ := mem_generate_candidates hm
  rcases mv with ⟨mfrom, mto, mkind⟩
  have hp' : piece_at s.board mfrom = some piece := hp
  have hfb' : inBoard mfrom := hfb
  rcases mkind with _ | _ | _ | _ | promo
  · -- Normal
    have harm' : inBoard mto ∧
        (∀ t, piece_at s.board mto = some t → t.color ≠ piece.color) := harm
    have happly := apply_move_unchecked_eq s ⟨mfrom, mto, MoveKind.Normal⟩ piece hp
      (apply_move_step_normal { s with en_passant := none } mfrom mto piece)
    by_cases hpk : piece.kind = PieceKind.King
    · have hpc : piece = ⟨s.side_to_move, PieceKind.King⟩ := by
        rcases piece with ⟨a, b2⟩
        simp_all
      refine ⟨_, happly, mto, mem_all_squares.mpr harm'.1, ?_⟩
      rw [(apply_finish_fields _ _ _ _ _ _).1]
      rw [piece_at_set_self, hpc]
    · have hne_from : ksq ≠ mfrom := by
        intro he
        apply hpk
        rw [he, hp'] at hk
        injection hk with hk2
        rw [hk2]
      have hne_to : ksq ≠ mto := by
        intro he
        have hcontra := harm'.2 ⟨s.side_to_move, PieceKind.King⟩ (by rw [← he]; exact hk)
        exact hcontra hcolor.symm
      refine ⟨_, happly, ksq, hksq, ?_⟩
      rw [(apply_finish_fields _ _ _ _ _ _).1]
      rw [piece_at_set_ne _ _ _ _ hne_to, piece_at_set_ne _ _ _ _ hne_from]
      exact hk
  · -- EnPassant
    have harm' : s.en_passant = some mto ∧ piece.kind = PieceKind.Pawn ∧
        (mto.2 : Int) = (mfrom.2 : Int) + pawn_dir piece.color := harm
    obtain ⟨hprov1, hprov2⟩ := hprov mto harm'.1
    have happly := apply_move_unchecked_eq s ⟨mfrom, mto, MoveKind.EnPassant⟩ piece hp
      (apply_move_step_en_passant { s with en_passant := none } mfrom mto piece)
    have hne_from : ksq ≠ mfrom := by
      intro he
      have hpawn := harm'.2.1
      rw [he, hp'] at hk
      injection hk with hk2
      rw [hk2] at hpawn
      simp at hpawn
    have hne_to : ksq ≠ mto := Ne.symm hprov1
    have hne_cap : ksq ≠ (mto.1, mfrom.2) := by
      refine Ne.symm (hprov2 mfrom.2 ?_)
      have := harm'.2.2
      rw [hcolor] at this
      omega
    refine ⟨_, happly, ksq, hksq, ?_⟩
    rw [(apply_finish_fields _ _ _ _ _ _).1]
    rw [piece_at_set_ne _ _ _ _ hne_to, piece_at_set_ne _ _ _ _ hne_from,
      piece_at_set_ne _ _ _ _ hne_cap]
    exact hk
  · -- CastleKingside
    rcases piece with ⟨pcol, pkind⟩
    have harm' : pkind = PieceKind.King ∧ mfrom = (4, home_rank pcol) ∧
        mto = (6, home_rank pcol) ∧
        piece_at s.board (5, home_rank pcol) = none ∧
        piece_at s.board (6, home_rank pcol) = none ∧
        piece_at s.board (7, home_rank pcol) = some ⟨pcol, PieceKind.Rook⟩ := harm
    have hrook : piece_at ({ s with en_passant := none } : GameState).board
        (7, home_rank pcol) = some (⟨pcol, PieceKind.Rook⟩ : Piece) := harm'.2.2.2.2.2
    have happly := apply_move_unchecked_eq s ⟨mfrom, mto, MoveKind.CastleKingside⟩
      ⟨pcol, pkind⟩ hp
      (apply_move_step_castle_ks { s with en_passant := none } mfrom mto pcol pkind
        ⟨pcol, PieceKind.Rook⟩ hrook)
    refine ⟨_, happly, (6, home_rank pcol),
      mem_all_squares.mpr ⟨by omega, home_rank_lt pcol⟩, ?_⟩
    rw [(apply_finish_fields _ _ _ _ _ _).1]
    rw [piece_at_set_ne _ _ _ _ (by simp), piece_at_set_ne _ _ _ _ (by simp),
      piece_at_set_self]
    have hpcol : pcol = s.side_to_move := hcolor
    rw [harm'.1, hpcol]
  · -- CastleQueenside
    rcases piece with ⟨pcol, pkind⟩
    have harm' : pkind = PieceKind.King ∧ mfrom = (4, home_rank pcol) ∧
        mto = (2, home_rank pcol) ∧
        piece_at s.board (1, home_rank pcol) = none ∧
        piece_at s.board (2, home_rank pcol) = none ∧
        piece_at s.board (3, home_rank pcol) = none ∧
        piece_at s.board (0, home_rank pcol) = some ⟨pcol, PieceKind.Rook⟩ := harm
    have hrook : piece_at ({ s with en_passant := none } : GameState).board
        (0, home_rank pcol) = some (⟨pcol, PieceKind.Rook⟩ : Piece) := harm'.2.2.2.2.2.2
    have happly := apply_move_unchecked_eq s ⟨mfrom, mto, MoveKind.CastleQueenside⟩
      ⟨pcol, pkind⟩ hp
      (apply_move_step_castle_qs { s with en_passant := none } mfrom mto pcol pkind
        ⟨pcol, PieceKind.Rook⟩ hrook)
    refine ⟨_, happly, (2, home_rank pcol),
      mem_all_squares.mpr ⟨by omega, home_rank_lt pcol⟩, ?_⟩
    rw [(apply_finish_fields _ _ _ _ _ _).1]
    rw [piece_at_set_ne _ _ _ _ (by simp), piece_at_set_ne _ _ _ _ (by simp),
      piece_at_set_self]
    have hpcol : pcol = s.side_to_move := hcolor
    rw [harm'.1, hpcol]
  · -- Promotion
    have harm' : piece.kind = PieceKind.Pawn ∧ inBoard mto ∧
        (∀ t, piece_at s.board mto = some t → t.color ≠ piece.color) := harm
    have happly := apply_move_unchecked_eq s ⟨mfrom, mto, MoveKind.Promotion promo⟩ piece hp
      (apply_move_step_promotion { s with en_passant := none } mfrom mto piece promo)
    have hne_from : ksq ≠ mfrom := by
      intro he
      have hpawn := harm'.1
      rw [he, hp'] at hk
      injection hk with hk2
      rw [hk2] at hpawn
      simp at hpawn
    have hne_to : ksq ≠ mto := by
      intro he
      have hcontra := harm'.2.2 ⟨s.side_to_move, PieceKind.King⟩ (by rw [← he]; exact hk)
      exact hcontra hcolor.symm
    refine ⟨_, happly, ksq, hksq, ?_⟩
    rw [(apply_finish_fields _ _ _ _ _ _).1]
    rw [piece_at_set_ne _ _ _ _ hne_to, piece_at_set_ne _ _ _ _ hne_from]
    exact hk

theorem is_move_legal_isSome (s : GameState) (mv : Move) (ksq : Square)
    (hksq : ksq ∈ all_squares)
    (hk : piece_at s.board ksq = some ⟨s.side_to_move, PieceKind.King⟩)
    (hprov : ∀ ep, s.en_passant = some ep → ep ≠ ksq ∧
      ∀ r : Nat, ((r : Int) + pawn_dir s.side_to_move = (ep.2 : Int)) → (ep.1, r) ≠ ksq)
    (hm : mv ∈ generate_candidates s) :
    (is_move_legal? s mv).isSome := by
  have hpre : (is_in_check? s s.side_to_move).isSome := is_in_check?_isSome ⟨ksq, hksq, hk⟩
  obtain ⟨s', hap, ksq', hmem', hk'⟩ := candidate_apply_preserves_king s mv ksq hksq hk hprov hm
  have hpost : (is_in_check? s' s.side_to_move).isSome := is_in_check?_isSome ⟨ksq', hmem', hk'⟩
  have hafter : (match apply_move_unchecked s mv with
      | none => none
      | some next =>
        match is_in_check? next s.side_to_move with
        | none => none
        | some c => some (!c) : Option Bool).isSome := by
    rw [hap]
    show (match is_in_check? s' s.side_to_move with
      | none => none
      | some c => some (!c) : Option Bool).isSome
    rcases hc : is_in_check? s' s.side_to_move with _ | c
    · rw [hc] at hpost
      cases hpost
    · rfl
  unfold is_move_legal?
  rcases hkind : mv.kind with _ | _ | _ | _ | promo
  · exact hafter
  · exact hafter
  · show (match is_in_check? s s.side_to_move with
      | none => none
      | some true => some false
      | some false =>
        if king_passes_through_check s mv = true then some false
        else (match apply_move_unchecked s mv with
          | none => none
          | some next =>
            match is_in_check? next s.side_to_move with
            | none => none
            | some c => some (!c)) : Option Bool).isSome = true
    rcases hc2 : is_in_check? s s.side_to_move with _ | c
    · rw [hc2] at hpre
      cases hpre
    · cases c
      · split_ifs
        · rfl
        · exact hafter
      · rfl
  · show (match is_in_check? s s.side_to_move with
      | none => none
      | some true => some false
      | some false =>
        if king_passes_through_check s mv = true then some false
        else (match apply_move_unchecked s mv with
          | none => none
          | some next =>
            match is_in_check? next s.side_to_move with
            | none => none
            | some c => some (!c)) : Option Bool).isSome = true
    rcases hc2 : is_in_check? s s.side_to_move with _ | c
    · rw [hc2] at hpre
      cases hpre
    · cases c
      · split_ifs
        · rfl
        · exact hafter
      · rfl
  · exact hafter

theorem rules_total_with_king (s : GameState) (ksq : Square)
    (hksq : ksq ∈ all_squares)
    (hk : piece_at s.board ksq = some ⟨s.side_to_move, PieceKind.King⟩)
    (hprov : ∀ ep, s.en_passant = some ep → ep ≠ ksq ∧
      ∀ r : Nat, ((r : Int) + pawn_dir s.side_to_move = (ep.2 : Int)) → (ep.1, r) ≠ ksq) :
    (legal_moves? s).isSome ∧ (is_checkmate? s).isSome ∧ (is_stalemate? s).isSome := by
  have hpre : (is_in_check? s s.side_to_move).isSome := is_in_check?_isSome ⟨ksq, hksq, hk⟩
  have hl : (legal_moves? s).isSome :=
    filter_some_isSome (fun mv hm => is_move_legal_isSome s mv ksq hksq hk hprov hm)
  refine ⟨hl, ?_, ?_⟩
  · unfold is_checkmate?
    rcases hc : is_in_check? s s.side_to_move with _ | c
    · rw [hc] at hpre
      cases hpre
    · cases c
      · rfl
      · rcases hlm : legal_moves? s with _ | l
        · rw [hlm] at hl
          cases hl
        · rfl
  · unfold is_stalemate?
    rcases hc : is_in_check? s s.side_to_move with _ | c
    · rw [hc] at hpre
      cases hpre
    · cases c
      · rcases hlm : legal_moves? s with _ | l
        · rw [hlm] at hl
          cases hl
        · rfl
      · rfl

/-- C10, counterexample: a state with both kings on the board on which
`legal_moves` nevertheless reaches the missing-king panic — the
en-passant target names the mover's own king square, so the trial
application of the generated en-passant capture overwrites the White
king and `is_in_check` panics. -/
theorem legal_moves_panics_with_both_kings :
    piece_at state_ep_own_king.board (3, 5) = some ⟨Color.White, PieceKind.King⟩ ∧
    piece_at state_ep_own_king.board (4, 7) = some ⟨Color.Black, PieceKind.King⟩ ∧
    state_ep_own_king.side_to_move = Color.White ∧
    legal_moves? state_ep_own_king = none := by
  exact ⟨by decide, by decide, rfl, by decide⟩

/-- C10, amended: (1) `is_in_check(state, c)` completes (never reaches
the missing-king panic) whenever the board holds a king of color `c`;
(2) `legal_moves`, `is_checkmate` and `is_stalemate` complete whenever
the mover's king is on the board *and* the en-passant target does not
make any generated en-passant capture write over or capture that king
(without that proviso they can panic, see the counterexample);
(3) the precondition is not enforced at the public interface:
`from_fen` accepts a piece-placement field with no kings and returns
such a state, on which `is_in_check` reaches the panic. -/
theorem missing_king_totality :
    (∀ (s : GameState) (c : Color),
      (∃ sq ∈ all_squares, piece_at s.board sq = some ⟨c, PieceKind.King⟩) →
      (is_in_check? s c).isSome) ∧
    (∀ (s : GameState) (ksq : Square), ksq ∈ all_squares →
      piece_at s.board ksq = some ⟨s.side_to_move, PieceKind.King⟩ →
      (∀ ep, s.en_passant = some ep → ep ≠ ksq ∧
        ∀ r : Nat, ((r : Int) + pawn_dir s.side_to_move = (ep.2 : Int)) → (ep.1, r) ≠ ksq) →
      (legal_moves? s).isSome ∧ (is_checkmate? s).isSome ∧ (is_stalemate? s).isSome) ∧
    ((from_fen "8/8/8/8/8/8/8/8 w - -").map (Option.map (fun st =>
      (decide (∀ sq ∈ all_squares, piece_at st.board sq = none),
       is_in_check? st Color.White))) = some (some (true, none))) := by
  refine ⟨?_, ?_, by decide⟩
  · intro s c h
    exact is_in_check?_isSome h
  · intro s ksq hksq hk hprov
    exact rules_total_with_king s ksq hksq hk hprov

theorem missing_king_totality_witness :
    (is_in_check? GameState.new Color.White).isSome ∧
    (legal_moves? GameState.new).isSome ∧ (is_checkmate? GameState.new).isSome ∧
    (is_stalemate? GameState.new).isSome := by
  refine ⟨missing_king_totality.1 GameState.new Color.White ⟨(4, 0), by decide, by decide⟩, ?_⟩
  exact missing_king_totality.2.1 GameState.new (4, 0) (by decide) (by decide)
    (fun ep hep => by cases hep)

theorem ray_attacked_oob (b : Board) (c : Color) (kinds : List PieceKind) (df dr nf nr : Int)
    (fuel : Nat) (h : ¬ in_bounds nf nr = true) :
    ray_attacked b c kinds df dr nf nr (fuel + 1) = false := by
  rw [ray_attacked, if_neg h]

theorem ray_attacked_hit (b : Board) (c : Color) (kinds : List PieceKind) (df dr nf nr : Int)
    (fuel : Nat) (p : Piece) (hin : in_bounds nf nr = true)
    (hp : b (nf.toNat, nr.toNat) = some p) :
    ray_attacked b c kinds df dr nf nr (fuel + 1) = (p.color == c && kinds.contains p.kind) := by
  rw [ray_attacked, if_pos hin, hp]

theorem ray_attacked_empty (b : Board) (c : Color) (kinds : List PieceKind) (df dr nf nr : Int)
    (fuel : Nat) (hin : in_bounds nf nr = true) (hp : b (nf.toNat, nr.toNat) = none) :
    ray_attacked b c kinds df dr nf nr (fuel + 1) =
      ray_attacked b c kinds df dr (nf + df) (nr + dr) fuel := by
  rw [ray_attacked, if_pos hin, hp]

/-- Two boards that agree on every in-bounds square whose rank satisfies
a property preserved by the ray's rank step give the same ray scan. -/
theorem ray_attacked_congr (b1 b2 : Board) (c : Color) (kinds : List PieceKind) (df dr : Int)
    (P : Int → Prop) (hP : ∀ r, P r → P (r + dr))
    (H : ∀ f r : Int, in_bounds f r = true → P r →
      b1 (f.toNat, r.toNat) = b2 (f.toNat, r.toNat)) :
    ∀ (fuel : Nat) (nf nr : Int), P nr →
      ray_attacked b1 c kinds df dr nf nr fuel = ray_attacked b2 c kinds df dr nf nr fuel := by
  intro fuel
  induction fuel with
  | zero => intro nf nr _; rfl
  | succ n ih =>
    intro nf nr hnr
    by_cases hin : in_bounds nf nr = true
    · rw [ray_attacked, ray_attacked, if_pos hin, if_pos hin, H nf nr hin hnr]
      rcases hb : b2 (nf.toNat, nr.toNat) with _ | p
      · exact ih (nf + df) (nr + dr) (hP nr hnr)
      · rfl
    · rw [ray_attacked_oob _ _ _ _ _ _ _ _ hin, ray_attacked_oob _ _ _ _ _ _ _ _ hin]

theorem find?_eq_some_of_unique {α : Type} {p : α → Bool} {l : List α} {a : α}
    (hmem : a ∈ l) (hp : p a = true) (huniq : ∀ x ∈ l, p x = true → x = a) :
    l.find? p = some a := by
  induction l with
  | nil => cases hmem
  | cons x xs ih =>
    by_cases hx : p x = true
    · rw [List.find?_cons_of_pos _ hx]
      rw [huniq x (List.mem_cons_self _ _) hx]
    · rw [List.find?_cons_of_neg _ (by simpa using hx)]
      have hmem' : a ∈ xs := by
        rcases List.mem_cons.mp hmem with h | h
        · subst h
          exact absurd hp hx
        · exact h
      exact ih hmem' (fun y hy hpy => huniq y (List.mem_cons_of_mem _ hy) hpy)

/-- Castling relocates only back-rank squares, so whether the king's
destination square is attacked is unchanged by the castle board update
(White kingside geometry; the three mirror lemmas below cover the other
color and side). -/
theorem wks_attack_eq (s : GameState)
    (h4 : piece_at s.board (4, 0) = some ⟨Color.White, PieceKind.King⟩)
    (h5 : piece_at s.board (5, 0) = none)
    (h7 : piece_at s.board (7, 0) = some ⟨Color.White, PieceKind.Rook⟩) :
    is_square_attacked { s with board := (set_piece (set_piece (set_piece (set_piece s.board
        (4, 0) none) (6, 0) (some ⟨Color.White, PieceKind.King⟩)) (7, 0) none) (5, 0)
        (some ⟨Color.White, PieceKind.Rook⟩)) } (6, 0) Color.Black =
    is_square_attacked s (6, 0) Color.Black := by
  set b' : Board := set_piece (set_piece (set_piece (set_piece s.board
      (4, 0) none) (6, 0) (some ⟨Color.White, PieceKind.King⟩)) (7, 0) none) (5, 0)
      (some ⟨Color.White, PieceKind.Rook⟩) with hb'
  have e1 : ∀ t : Square, t.2 ≠ 0 → piece_at b' t = piece_at s.board t := by
    intro t ht
    rw [hb',
      piece_at_set_ne _ _ _ _ (by intro hc; rw [hc] at ht; exact ht rfl),
      piece_at_set_ne _ _ _ _ (by intro hc; rw [hc] at ht; exact ht rfl),
      piece_at_set_ne _ _ _ _ (by intro hc; rw [hc] at ht; exact ht rfl),
      piece_at_set_ne _ _ _ _ (by intro hc; rw [hc] at ht; exact ht rfl)]
  have p50 : piece_at b' (5, 0) = some ⟨Color.White, PieceKind.Rook⟩ := by
    rw [hb', piece_at_set_self]
  have p70 : piece_at b' (7, 0) = none := by
    rw [hb', piece_at_set_ne _ _ _ _ (by decide), piece_at_set_self]
  have hagree : ∀ f r : Int, in_bounds f r = true → 1 ≤ r →
      b' (f.toNat, r.toNat) = s.board (f.toNat, r.toNat) := by
    intro f r _ hr
    have ht : ((f.toNat, r.toNat) : Square).2 ≠ 0 := by
      simp only
      omega
    exact e1 _ ht
  have rup : ∀ (kinds : List PieceKind) (df nf : Int),
      ray_attacked b' Color.Black kinds df 1 nf 1 8 =
      ray_attacked s.board Color.Black kinds df 1 nf 1 8 :=
    fun kinds df nf =>
      ray_attacked_congr b' s.board Color.Black kinds df 1 (fun r => 1 ≤ r)
        (fun r hr => by omega) (fun f r hin hr => hagree f r hin hr) 8 nf 1 (by norm_num)
  have roob : ∀ (b : Board) (kinds : List PieceKind) (df dr nf : Int),
      ray_attacked b Color.Black kinds df dr nf (-1) 8 = false :=
    fun b kinds df dr nf =>
      ray_attacked_oob b Color.Black kinds df dr nf (-1) 7 (by simp [in_bounds])
  have rL : ray_attacked b' Color.Black [PieceKind.Rook, PieceKind.Queen] (-1) 0 5 0 8
      = false := by
    have p50' : b' (((5 : Int)).toNat, ((0 : Int)).toNat)
        = some ⟨Color.White, PieceKind.Rook⟩ := p50
    rw [show (8 : Nat) = 7 + 1 from rfl,
      ray_attacked_hit b' Color.Black [PieceKind.Rook, PieceKind.Queen] (-1) 0 5 0 7
        ⟨Color.White, PieceKind.Rook⟩ (by decide) p50']
    decide
  have rLs : ray_attacked s.board Color.Black [PieceKind.Rook, PieceKind.Queen] (-1) 0 5 0 8
      = false := by
    have h5' : s.board (((5 : Int)).toNat, ((0 : Int)).toNat) = none := h5
    have h4' : s.board ((((5 : Int)) + -1).toNat, (((0 : Int)) + 0).toNat)
        = some ⟨Color.White, PieceKind.King⟩ := h4
    rw [show (8 : Nat) = 7 + 1 from rfl,
      ray_attacked_empty s.board Color.Black [PieceKind.Rook, PieceKind.Queen] (-1) 0 5 0 7
        (by decide) h5',
      show (7 : Nat) = 6 + 1 from rfl,
      ray_attacked_hit s.board Color.Black [PieceKind.Rook, PieceKind.Queen] (-1) 0
        (5 + -1) (0 + 0) 6 ⟨Color.White, PieceKind.King⟩ (by decide) h4']
    decide
  have rR : ray_attacked b' Color.Black [PieceKind.Rook, PieceKind.Queen] 1 0 7 0 8
      = false := by
    have p70' : b' (((7 : Int)).toNat, ((0 : Int)).toNat) = none := p70
    rw [show (8 : Nat) = 7 + 1 from rfl,
      ray_attacked_empty b' Color.Black [PieceKind.Rook, PieceKind.Queen] 1 0 7 0 7
        (by decide) p70',
      show (7 : Nat) = 6 + 1 from rfl]
    exact ray_attacked_oob b' Color.Black [PieceKind.Rook, PieceKind.Queen] 1 0
      (7 + 1) (0 + 0) 6 (by decide)
  have rRs : ray_attacked s.board Color.Black [PieceKind.Rook, PieceKind.Queen] 1 0 7 0 8
      = false := by
    have h7' : s.board (((7 : Int)).toNat, ((0 : Int)).toNat)
        = some ⟨Color.White, PieceKind.Rook⟩ := h7
    rw [show (8 : Nat) = 7 + 1 from rfl,
      ray_attacked_hit s.board Color.Black [PieceKind.Rook, PieceKind.Queen] 1 0 7 0 7
        ⟨Color.White, PieceKind.Rook⟩ (by decide) h7']
    decide
  have e51 := e1 (5, 1) (by decide)
  have e71 := e1 (7, 1) (by decide)
  have e41 := e1 (4, 1) (by decide)
  have e52 := e1 (5, 2) (by decide)
  have e72 := e1 (7, 2) (by decide)
  have e61 := e1 (6, 1) (by decide)
  unfold is_square_attacked diagonal_attacked orthogonal_attacked
  simp only [KNIGHT_DIRS, KING_DIRS, BISHOP_DIRS, ROOK_DIRS, List.any_cons, List.any_nil]
  norm_num [in_bounds]
  simp only [show (if Color.Black = Color.White then (-1 : Int) else 1) = 1 from rfl,
    show Int.toNat 1 = 1 from rfl, show Int.toNat 2 = 2 from rfl,
    show Int.toNat 4 = 4 from rfl, show Int.toNat 5 = 5 from rfl,
    show Int.toNat 6 = 6 from rfl, show Int.toNat 7 = 7 from rfl,
    e51, e71, e41, e52, e72, e61, p50, p70, h5, h7, rup, roob, rL, rLs, rR, rRs,
    Bool.false_or, Bool.or_false,
    (by decide : (some (⟨Color.White, PieceKind.Rook⟩ : Piece)
      == some (⟨Color.Black, PieceKind.King⟩ : Piece)) = false),
    (by decide : ((none : Option Piece)
      == some (⟨Color.Black, PieceKind.King⟩ : Piece)) = false)]

theorem wqs_attack_eq (s : GameState)
    (h4 : piece_at s.board (4, 0) = some ⟨Color.White, PieceKind.King⟩)
    (h1 : piece_at s.board (1, 0) = none)
    (h3 : piece_at s.board (3, 0) = none)
    (h0 : piece_at s.board (0, 0) = some ⟨Color.White, PieceKind.Rook⟩) :
    is_square_attacked { s with board := (set_piece (set_piece (set_piece (set_piece s.board
        (4, 0) none) (2, 0) (some ⟨Color.White, PieceKind.King⟩)) (0, 0) none) (3, 0)
        (some ⟨Color.White, PieceKind.Rook⟩)) } (2, 0) Color.Black =
    is_square_attacked s (2, 0) Color.Black := by
  set b' : Board := set_piece (set_piece (set_piece (set_piece s.board
      (4, 0) none) (2, 0) (some ⟨Color.White, PieceKind.King⟩)) (0, 0) none) (3, 0)
      (some ⟨Color.White, PieceKind.Rook⟩) with hb'
  have e1 : ∀ t : Square, t.2 ≠ 0 → piece_at b' t = piece_at s.board t := by
    intro t ht
    rw [hb',
      piece_at_set_ne _ _ _ _ (by intro hc; rw [hc] at ht; exact ht rfl),
      piece_at_set_ne _ _ _ _ (by intro hc; rw [hc] at ht; exact ht rfl),
      piece_at_set_ne _ _ _ _ (by intro hc; rw [hc] at ht; exact ht rfl),
      piece_at_set_ne _ _ _ _ (by intro hc; rw [hc] at ht; exact ht rfl)]
  have p30 : piece_at b' (3, 0) = some ⟨Color.White, PieceKind.Rook⟩ := by
    rw [hb', piece_at_set_self]
  have p00 : piece_at b' (0, 0) = none := by
    rw [hb', piece_at_set_ne _ _ _ _ (by decide), piece_at_set_self]
  have q10 : piece_at b' (1, 0) = piece_at s.board (1, 0) := by
    rw [hb', piece_at_set_ne _ _ _ _ (by decide), piece_at_set_ne _ _ _ _ (by decide),
      piece_at_set_ne _ _ _ _ (by decide), piece_at_set_ne _ _ _ _ (by decide)]
  have e11 := e1 (1, 1) (by decide)
  have e31 := e1 (3, 1) (by decide)
  have e01 := e1 (0, 1) (by decide)
  have e41 := e1 (4, 1) (by decide)
  have e12 := e1 (1, 2) (by decide)
  have e32 := e1 (3, 2) (by decide)
  have e21 := e1 (2, 1) (by decide)
  have eOne : piece_at b' 1 = piece_at s.board 1 := e1 (1, 1) (by decide)
  have hagree : ∀ f r : Int, in_bounds f r = true → 1 ≤ r →
      b' (f.toNat, r.toNat) = s.board (f.toNat, r.toNat) := by
    intro f r _ hr
    have ht : ((f.toNat, r.toNat) : Square).2 ≠ 0 := by
      simp only
      omega
    exact e1 _ ht
  have rup : ∀ (kinds : List PieceKind) (df nf : Int),
      ray_attacked b' Color.Black kinds df 1 nf 1 8 =
      ray_attacked s.board Color.Black kinds df 1 nf 1 8 :=
    fun kinds df nf =>
      ray_attacked_congr b' s.board Color.Black kinds df 1 (fun r => 1 ≤ r)
        (fun r hr => by omega) (fun f r hin hr => hagree f r hin hr) 8 nf 1 (by norm_num)
  have roob : ∀ (b : Board) (kinds : List PieceKind) (df dr nf : Int),
      ray_attacked b Color.Black kinds df dr nf (-1) 8 = false :=
    fun b kinds df dr nf =>
      ray_attacked_oob b Color.Black kinds df dr nf (-1) 7 (by simp [in_bounds])
  have rL : ray_attacked b' Color.Black [PieceKind.Rook, PieceKind.Queen] (-1) 0 1 0 8
      = false := by
    have q10' : b' (((1 : Int)).toNat, ((0 : Int)).toNat) = none := by
      rw [show ((((1 : Int)).toNat, ((0 : Int)).toNat) : Square) = (1, 0) from rfl]
      exact q10.trans h1
    have p00' : b' ((((1 : Int)) + -1).toNat, (((0 : Int)) + 0).toNat) = none := p00
    rw [show (8 : Nat) = 7 + 1 from rfl,
      ray_attacked_empty b' Color.Black [PieceKind.Rook, PieceKind.Queen] (-1) 0 1 0 7
        (by decide) q10',
      show (7 : Nat) = 6 + 1 from rfl,
      ray_attacked_empty b' Color.Black [PieceKind.Rook, PieceKind.Queen] (-1) 0
        (1 + -1) (0 + 0) 6 (by decide) p00',
      show (6 : Nat) = 5 + 1 from rfl]
    exact ray_attacked_oob b' Color.Black [PieceKind.Rook, PieceKind.Queen] (-1) 0
      (1 + -1 + -1) (0 + 0 + 0) 5 (by decide)
  have rLs : ray_attacked s.board Color.Black [PieceKind.Rook, PieceKind.Queen] (-1) 0 1 0 8
      = false := by
    have h1' : s.board (((1 : Int)).toNat, ((0 : Int)).toNat) = none := h1
    have h0' : s.board ((((1 : Int)) + -1).toNat, (((0 : Int)) + 0).toNat)
        = some ⟨Color.White, PieceKind.Rook⟩ := h0
    rw [show (8 : Nat) = 7 + 1 from rfl,
      ray_attacked_empty s.board Color.Black [PieceKind.Rook, PieceKind.Queen] (-1) 0 1 0 7
        (by decide) h1',
      show (7 : Nat) = 6 + 1 from rfl,
      ray_attacked_hit s.board Color.Black [PieceKind.Rook, PieceKind.Queen] (-1) 0
        (1 + -1) (0 + 0) 6 ⟨Color.White, PieceKind.Rook⟩ (by decide) h0']
    decide
  have rR : ray_attacked b' Color.Black [PieceKind.Rook, PieceKind.Queen] 1 0 3 0 8
      = false := by
    have p30' : b' (((3 : Int)).toNat, ((0 : Int)).toNat)
        = some ⟨Color.White, PieceKind.Rook⟩ := p30
    rw [show (8 : Nat) = 7 + 1 from rfl,
      ray_attacked_hit b' Color.Black [PieceKind.Rook, PieceKind.Queen] 1 0 3 0 7
        ⟨Color.White, PieceKind.Rook⟩ (by decide) p30']
    decide
  have rRs : ray_attacked s.board Color.Black [PieceKind.Rook, PieceKind.Queen] 1 0 3 0 8
      = false := by
    have h3' : s.board (((3 : Int)).toNat, ((0 : Int)).toNat) = none := h3
    have h4' : s.board ((((3 : Int)) + 1).toNat, (((0 : Int)) + 0).toNat)
        = some ⟨Color.White, PieceKind.King⟩ := h4
    rw [show (8 : Nat) = 7 + 1 from rfl,
      ray_attacked_empty s.board Color.Black [PieceKind.Rook, PieceKind.Queen] 1 0 3 0 7
        (by decide) h3',
      show (7 : Nat) = 6 + 1 from rfl,
      ray_attacked_hit s.board Color.Black [PieceKind.Rook, PieceKind.Queen] 1 0
        (3 + 1) (0 + 0) 6 ⟨Color.White, PieceKind.King⟩ (by decide) h4']
    decide
  unfold is_square_attacked diagonal_attacked orthogonal_attacked
  simp only [KNIGHT_DIRS, KING_DIRS, BISHOP_DIRS, ROOK_DIRS, List.any_cons, List.any_nil]
  norm_num [in_bounds]
  simp only [show (if Color.Black = Color.White then (-1 : Int) else 1) = 1 from rfl,
    show Int.toNat 0 = 0 from rfl, show Int.toNat 1 = 1 from rfl,
    show Int.toNat 2 = 2 from rfl, show Int.toNat 3 = 3 from rfl,
    show Int.toNat 4 = 4 from rfl, show Int.toNat 5 = 5 from rfl,
    show Int.toNat 6 = 6 from rfl, show Int.toNat 7 = 7 from rfl,
    e11, e31, e01, e41, e12, e32, e21, eOne, q10, p30, p00, h3, rup, roob, rL, rLs, rR, rRs,
    Bool.false_or, Bool.or_false,
    (by decide : (some (⟨Color.White, PieceKind.Rook⟩ : Piece)
      == some (⟨Color.Black, PieceKind.King⟩ : Piece)) = false),
    (by decide : ((none : Option Piece)
      == some (⟨Color.Black, PieceKind.King⟩ : Piece)) = false)]

theorem bks_attack_eq (s : GameState)
    (h4 : piece_at s.board (4, 7) = some ⟨Color.Black, PieceKind.King⟩)
    (h5 : piece_at s.board (5, 7) = none)
    (h7 : piece_at s.board (7, 7) = some ⟨Color.Black, PieceKind.Rook⟩) :
    is_square_attacked { s with board := (set_piece (set_piece (set_piece (set_piece s.board
        (4, 7) none) (6, 7) (some ⟨Color.Black, PieceKind.King⟩)) (7, 7) none) (5, 7)
        (some ⟨Color.Black, PieceKind.Rook⟩)) } (6, 7) Color.White =
    is_square_attacked s (6, 7) Color.White := by
  set b' : Board := set_piece (set_piece (set_piece (set_piece s.board
      (4, 7) none) (6, 7) (some ⟨Color.Black, PieceKind.King⟩)) (7, 7) none) (5, 7)
      (some ⟨Color.Black, PieceKind.Rook⟩) with hb'
  have e1 : ∀ t : Square, t.2 ≠ 7 → piece_at b' t = piece_at s.board t := by
    intro t ht
    rw [hb',
      piece_at_set_ne _ _ _ _ (by intro hc; rw [hc] at ht; exact ht rfl),
      piece_at_set_ne _ _ _ _ (by intro hc; rw [hc] at ht; exact ht rfl),
      piece_at_set_ne _ _ _ _ (by intro hc; rw [hc] at ht; exact ht rfl),
      piece_at_set_ne _ _ _ _ (by intro hc; rw [hc] at ht; exact ht rfl)]
  have p57 : piece_at b' (5, 7) = some ⟨Color.Black, PieceKind.Rook⟩ := by
    rw [hb', piece_at_set_self]
  have p77 : piece_at b' (7, 7) = none := by
    rw [hb', piece_at_set_ne _ _ _ _ (by decide), piece_at_set_self]
  have e56 := e1 (5, 6) (by decide)
  have e76 := e1 (7, 6) (by decide)
  have e46 := e1 (4, 6) (by decide)
  have e55 := e1 (5, 5) (by decide)
  have e75 := e1 (7, 5) (by decide)
  have e66 := e1 (6, 6) (by decide)
  have hagree : ∀ f r : Int, in_bounds f r = true → r ≤ 6 →
      b' (f.toNat, r.toNat) = s.board (f.toNat, r.toNat) := by
    intro f r _ hr
    have ht : ((f.toNat, r.toNat) : Square).2 ≠ 7 := by
      simp only
      omega
    exact e1 _ ht
  have rdn : ∀ (kinds : List PieceKind) (df nf : Int),
      ray_attacked b' Color.White kinds df (-1) nf 6 8 =
      ray_attacked s.board Color.White kinds df (-1) nf 6 8 :=
    fun kinds df nf =>
      ray_attacked_congr b' s.board Color.White kinds df (-1) (fun r => r ≤ 6)
        (fun r hr => by omega) (fun f r hin hr => hagree f r hin hr) 8 nf 6 (by norm_num)
  have roob8 : ∀ (b : Board) (kinds : List PieceKind) (df dr nf : Int),
      ray_attacked b Color.White kinds df dr nf 8 8 = false :=
    fun b kinds df dr nf =>
      ray_attacked_oob b Color.White kinds df dr nf 8 7 (by simp [in_bounds])
  have rL : ray_attacked b' Color.White [PieceKind.Rook, PieceKind.Queen] (-1) 0 5 7 8
      = false := by
    have p57' : b' (((5 : Int)).toNat, ((7 : Int)).toNat)
        = some ⟨Color.Black, PieceKind.Rook⟩ := p57
    rw [show (8 : Nat) = 7 + 1 from rfl,
      ray_attacked_hit b' Color.White [PieceKind.Rook, PieceKind.Queen] (-1) 0 5 7 7
        ⟨Color.Black, PieceKind.Rook⟩ (by decide) p57']
    decide
  have rLs : ray_attacked s.board Color.White [PieceKind.Rook, PieceKind.Queen] (-1) 0 5 7 8
      = false := by
    have h5' : s.board (((5 : Int)).toNat, ((7 : Int)).toNat) = none := h5
    have h4' : s.board ((((5 : Int)) + -1).toNat, (((7 : Int)) + 0).toNat)
        = some ⟨Color.Black, PieceKind.King⟩ := h4
    rw [show (8 : Nat) = 7 + 1 from rfl,
      ray_attacked_empty s.board Color.White [PieceKind.Rook, PieceKind.Queen] (-1) 0 5 7 7
        (by decide) h5',
      show (7 : Nat) = 6 + 1 from rfl,
      ray_attacked_hit s.board Color.White [PieceKind.Rook, PieceKind.Queen] (-1) 0
        (5 + -1) (7 + 0) 6 ⟨Color.Black, PieceKind.King⟩ (by decide) h4']
    decide
  have rR : ray_attacked b' Color.White [PieceKind.Rook, PieceKind.Queen] 1 0 7 7 8
      = false := by
    have p77' : b' (((7 : Int)).toNat, ((7 : Int)).toNat) = none := p77
    rw [show (8 : Nat) = 7 + 1 from rfl,
      ray_attacked_empty b' Color.White [PieceKind.Rook, PieceKind.Queen] 1 0 7 7 7
        (by decide) p77',
      show (7 : Nat) = 6 + 1 from rfl]
    exact ray_attacked_oob b' Color.White [PieceKind.Rook, PieceKind.Queen] 1 0
      (7 + 1) (7 + 0) 6 (by decide)
  have rRs : ray_attacked s.board Color.White [PieceKind.Rook, PieceKind.Queen] 1 0 7 7 8
      = false := by
    have h7' : s.board (((7 : Int)).toNat, ((7 : Int)).toNat)
        = some ⟨Color.Black, PieceKind.Rook⟩ := h7
    rw [show (8 : Nat) = 7 + 1 from rfl,
      ray_attacked_hit s.board Color.White [PieceKind.Rook, PieceKind.Queen] 1 0 7 7 7
        ⟨Color.Black, PieceKind.Rook⟩ (by decide) h7']
    decide
  unfold is_square_attacked diagonal_attacked orthogonal_attacked
  simp only [KNIGHT_DIRS, KING_DIRS, BISHOP_DIRS, ROOK_DIRS, List.any_cons, List.any_nil]
  norm_num [in_bounds]
  simp only [show (if Color.White = Color.White then (-1 : Int) else 1) = -1 from rfl,
    show Int.toNat 4 = 4 from rfl, show Int.toNat 5 = 5 from rfl,
    show Int.toNat 6 = 6 from rfl, show Int.toNat 7 = 7 from rfl,
    e56, e76, e46, e55, e75, e66, p57, p77, h5, h7, rdn, roob8, rL, rLs, rR, rRs,
    Bool.false_or, Bool.or_false,
    (by decide : (some (⟨Color.Black, PieceKind.Rook⟩ : Piece)
      == some (⟨Color.White, PieceKind.King⟩ : Piece)) = false),
    (by decide : ((none : Option Piece)
      == some (⟨Color.White, PieceKind.King⟩ : Piece)) = false)]

theorem bqs_attack_eq (s : GameState)
    (h4 : piece_at s.board (4, 7) = some ⟨Color.Black, PieceKind.King⟩)
    (h1 : piece_at s.board (1, 7) = none)
    (h3 : piece_at s.board (3, 7) = none)
    (h0 : piece_at s.board (0, 7) = some ⟨Color.Black, PieceKind.Rook⟩) :
    is_square_attacked { s with board := (set_piece (set_piece (set_piece (set_piece s.board
        (4, 7) none) (2, 7) (some ⟨Color.Black, PieceKind.King⟩)) (0, 7) none) (3, 7)
        (some ⟨Color.Black, PieceKind.Rook⟩)) } (2, 7) Color.White =
    is_square_attacked s (2, 7) Color.White := by
  set b' : Board := set_piece (set_piece (set_piece (set_piece s.board
      (4, 7) none) (2, 7) (some ⟨Color.Black, PieceKind.King⟩)) (0, 7) none) (3, 7)
      (some ⟨Color.Black, PieceKind.Rook⟩) with hb'
  have e1 : ∀ t : Square, t.2 ≠ 7 → piece_at b' t = piece_at s.board t := by
    intro t ht
    rw [hb',
      piece_at_set_ne _ _ _ _ (by intro hc; rw [hc] at ht; exact ht rfl),
      piece_at_set_ne _ _ _ _ (by intro hc; rw [hc] at ht; exact ht rfl),
      piece_at_set_ne _ _ _ _ (by intro hc; rw [hc] at ht; exact ht rfl),
      piece_at_set_ne _ _ _ _ (by intro hc; rw [hc] at ht; exact ht rfl)]
  have p37 : piece_at b' (3, 7) = some ⟨Color.Black, PieceKind.Rook⟩ := by
    rw [hb', piece_at_set_self]
  have p07 : piece_at b' (0, 7) = none := by
    rw [hb', piece_at_set_ne _ _ _ _ (by decide), piece_at_set_self]
  have q17 : piece_at b' (1, 7) = piece_at s.board (1, 7) := by
    rw [hb', piece_at_set_ne _ _ _ _ (by decide), piece_at_set_ne _ _ _ _ (by decide),
      piece_at_set_ne _ _ _ _ (by decide), piece_at_set_ne _ _ _ _ (by decide)]
  have e16 := e1 (1, 6) (by decide)
  have e36 := e1 (3, 6) (by decide)
  have e06 := e1 (0, 6) (by decide)
  have e46 := e1 (4, 6) (by decide)
  have e15 := e1 (1, 5) (by decide)
  have e35 := e1 (3, 5) (by decide)
  have e26 := e1 (2, 6) (by decide)
  have hagree : ∀ f r : Int, in_bounds f r = true → r ≤ 6 →
      b' (f.toNat, r.toNat) = s.board (f.toNat, r.toNat) := by
    intro f r _ hr
    have ht : ((f.toNat, r.toNat) : Square).2 ≠ 7 := by
      simp only
      omega
    exact e1 _ ht
  have rdn : ∀ (kinds : List PieceKind) (df nf : Int),
      ray_attacked b' Color.White kinds df (-1) nf 6 8 =
      ray_attacked s.board Color.White kinds df (-1) nf 6 8 :=
    fun kinds df nf =>
      ray_attacked_congr b' s.board Color.White kinds df (-1) (fun r => r ≤ 6)
        (fun r hr => by omega) (fun f r hin hr => hagree f r hin hr) 8 nf 6 (by norm_num)
  have roob8 : ∀ (b : Board) (kinds : List PieceKind) (df dr nf : Int),
      ray_attacked b Color.White kinds df dr nf 8 8 = false :=
    fun b kinds df dr nf =>
      ray_attacked_oob b Color.White kinds df dr nf 8 7 (by simp [in_bounds])
  have rL : ray_attacked b' Color.White [PieceKind.Rook, PieceKind.Queen] (-1) 0 1 7 8
      = false := by
    have q17' : b' (((1 : Int)).toNat, ((7 : Int)).toNat) = none := by
      rw [show ((((1 : Int)).toNat, ((7 : Int)).toNat) : Square) = (1, 7) from rfl]
      exact q17.trans h1
    have p07' : b' ((((1 : Int)) + -1).toNat, (((7 : Int)) + 0).toNat) = none := p07
    rw [show (8 : Nat) = 7 + 1 from rfl,
      ray_attacked_empty b' Color.White [PieceKind.Rook, PieceKind.Queen] (-1) 0 1 7 7
        (by decide) q17',
      show (7 : Nat) = 6 + 1 from rfl,
      ray_attacked_empty b' Color.White [PieceKind.Rook, PieceKind.Queen] (-1) 0
        (1 + -1) (7 + 0) 6 (by decide) p07',
      show (6 : Nat) = 5 + 1 from rfl]
    exact ray_attacked_oob b' Color.White [PieceKind.Rook, PieceKind.Queen] (-1) 0
      (1 + -1 + -1) (7 + 0 + 0) 5 (by decide)
  have rLs : ray_attacked s.board Color.White [PieceKind.Rook, PieceKind.Queen] (-1) 0 1 7 8
      = false := by
    have h1' : s.board (((1 : Int)).toNat, ((7 : Int)).toNat) = none := h1
    have h0' : s.board ((((1 : Int)) + -1).toNat, (((7 : Int)) + 0).toNat)
        = some ⟨Color.Black, PieceKind.Rook⟩ := h0
    rw [show (8 : Nat) = 7 + 1 from rfl,
      ray_attacked_empty s.board Color.White [PieceKind.Rook, PieceKind.Queen] (-1) 0 1 7 7
        (by decide) h1',
      show (7 : Nat) = 6 + 1 from rfl,
      ray_attacked_hit s.board Color.White [PieceKind.Rook, PieceKind.Queen] (-1) 0
        (1 + -1) (7 + 0) 6 ⟨Color.Black, PieceKind.Rook⟩ (by decide) h0']
    decide
  have rR : ray_attacked b' Color.White [PieceKind.Rook, PieceKind.Queen] 1 0 3 7 8
      = false := by
    have p37' : b' (((3 : Int)).toNat, ((7 : Int)).toNat)
        = some ⟨Color.Black, PieceKind.Rook⟩ := p37
    rw [show (8 : Nat) = 7 + 1 from rfl,
      ray_attacked_hit b' Color.White [PieceKind.Rook, PieceKind.Queen] 1 0 3 7 7
        ⟨Color.Black, PieceKind.Rook⟩ (by decide) p37']
    decide
  have rRs : ray_attacked s.board Color.White [PieceKind.Rook, PieceKind.Queen] 1 0 3 7 8
      = false := by
    have h3' : s.board (((3 : Int)).toNat, ((7 : Int)).toNat) = none := h3
    have h4' : s.board ((((3 : Int)) + 1).toNat, (((7 : Int)) + 0).toNat)
        = some ⟨Color.Black, PieceKind.King⟩ := h4
    rw [show (8 : Nat) = 7 + 1 from rfl,
      ray_attacked_empty s.board Color.White [PieceKind.Rook, PieceKind.Queen] 1 0 3 7 7
        (by decide) h3',
      show (7 : Nat) = 6 + 1 from rfl,
      ray_attacked_hit s.board Color.White [PieceKind.Rook, PieceKind.Queen] 1 0
        (3 + 1) (7 + 0) 6 ⟨Color.Black, PieceKind.King⟩ (by decide) h4']
    decide
  unfold is_square_attacked diagonal_attacked orthogonal_attacked
  simp only [KNIGHT_DIRS, KING_DIRS, BISHOP_DIRS, ROOK_DIRS, List.any_cons, List.any_nil]
  norm_num [in_bounds]
  simp only [show (if Color.White = Color.White then (-1 : Int) else 1) = -1 from rfl,
    show Int.toNat 0 = 0 from rfl, show Int.toNat 1 = 1 from rfl,
    show Int.toNat 2 = 2 from rfl, show Int.toNat 3 = 3 from rfl,
    show Int.toNat 4 = 4 from rfl, show Int.toNat 5 = 5 from rfl,
    show Int.toNat 6 = 6 from rfl, show Int.toNat 7 = 7 from rfl,
    e16, e36, e06, e46, e15, e35, e26, q17, p37, p07, h3, rdn, roob8, rL, rLs, rR, rRs,
    Bool.false_or, Bool.or_false,
    (by decide : (some (⟨Color.Black, PieceKind.Rook⟩ : Piece)
      == some (⟨Color.White, PieceKind.King⟩ : Piece)) = false),
    (by decide : ((none : Option Piece)
      == some (⟨Color.White, PieceKind.King⟩ : Piece)) = false)]

theorem is_square_attacked_board_eq (s1 s2 : GameState) (h : s1.board = s2.board)
    (sq : Square) (c : Color) :
    is_square_attacked s1 sq c = is_square_attacked s2 sq c := by
  unfold is_square_attacked diagonal_attacked orthogonal_attacked
  rw [h]

theorem find_king_castle_ks (s : GameState) (pcol : Color)
    (huniq1 : ∀ t ∈ all_squares,
      piece_at s.board t = some ⟨pcol, PieceKind.King⟩ → t = (4, home_rank pcol)) :
    find_king (set_piece (set_piece (set_piece (set_piece s.board (4, home_rank pcol) none)
      (6, home_rank pcol) (some ⟨pcol, PieceKind.King⟩)) (7, home_rank pcol) none)
      (5, home_rank pcol) (some ⟨pcol, PieceKind.Rook⟩)) pcol
      = some (6, home_rank pcol) := by
  unfold find_king
  refine find?_eq_some_of_unique
    (mem_all_squares.mpr ⟨by omega, home_rank_lt pcol⟩) ?_ ?_
  · rw [piece_at_set_ne _ _ _ _ (by simp), piece_at_set_ne _ _ _ _ (by simp),
      piece_at_set_self]
    simp
  · intro x hx hbeq
    simp only [beq_iff_eq] at hbeq
    by_cases hx5 : x = (5, home_rank pcol)
    · subst hx5
      rw [piece_at_set_self] at hbeq
      exact absurd hbeq (by simp)
    · rw [piece_at_set_ne _ _ _ _ hx5] at hbeq
      by_cases hx7 : x = (7, home_rank pcol)
      · subst hx7
        rw [piece_at_set_self] at hbeq
        exact absurd hbeq (by simp)
      · rw [piece_at_set_ne _ _ _ _ hx7] at hbeq
        by_cases hx6 : x = (6, home_rank pcol)
        · exact hx6
        · rw [piece_at_set_ne _ _ _ _ hx6] at hbeq
          by_cases hx4 : x = (4, home_rank pcol)
          · subst hx4
            rw [piece_at_set_self] at hbeq
            exact absurd hbeq (by simp)
          · rw [piece_at_set_ne _ _ _ _ hx4] at hbeq
            exact absurd (huniq1 x hx hbeq) hx4

theorem find_king_castle_qs (s : GameState) (pcol : Color)
    (huniq1 : ∀ t ∈ all_squares,
      piece_at s.board t = some ⟨pcol, PieceKind.King⟩ → t = (4, home_rank pcol)) :
    find_king (set_piece (set_piece (set_piece (set_piece s.board (4, home_rank pcol) none)
      (2, home_rank pcol) (some ⟨pcol, PieceKind.King⟩)) (0, home_rank pcol) none)
      (3, home_rank pcol) (some ⟨pcol, PieceKind.Rook⟩)) pcol
      = some (2, home_rank pcol) := by
  unfold find_king
  refine find?_eq_some_of_unique
    (mem_all_squares.mpr ⟨by omega, home_rank_lt pcol⟩) ?_ ?_
  · rw [piece_at_set_ne _ _ _ _ (by simp), piece_at_set_ne _ _ _ _ (by simp),
      piece_at_set_self]
    simp
  · intro x hx hbeq
    simp only [beq_iff_eq] at hbeq
    by_cases hx3 : x = (3, home_rank pcol)
    · subst hx3
      rw [piece_at_set_self] at hbeq
      exact absurd hbeq (by simp)
    · rw [piece_at_set_ne _ _ _ _ hx3] at hbeq
      by_cases hx0 : x = (0, home_rank pcol)
      · subst hx0
        rw [piece_at_set_self] at hbeq
        exact absurd hbeq (by simp)
      · rw [piece_at_set_ne _ _ _ _ hx0] at hbeq
        by_cases hx2 : x = (2, home_rank pcol)
        · exact hx2
        · rw [piece_at_set_ne _ _ _ _ hx2] at hbeq
          by_cases hx4 : x = (4, home_rank pcol)
          · subst hx4
            rw [piece_at_set_self] at hbeq
            exact absurd hbeq (by simp)
          · rw [piece_at_set_ne _ _ _ _ hx4] at hbeq
            exact absurd (huniq1 x hx hbeq) hx4

/-- C5: a candidate move is accepted by `is_move_legal` exactly when the
trial application leaves the mover's king unattacked, with a castling
candidate additionally requiring that the mover is not currently in check
and that the transit square (file 5 for kingside, file 3 for queenside on
the mover's home rank) is not attacked; the code's extra pre-move check of
the castle destination square is redundant because the destination's
attack status is unchanged by the castle board update, given that the
mover's king is unique on the board. In the S2 position the kingside
castle e1g1 is generated but rejected. -/
theorem castle_legality_characterization :
    (∀ (s : GameState) (mv : Move), mv ∈ generate_candidates s →
      (∀ t1 ∈ all_squares, ∀ t2 ∈ all_squares,
        piece_at s.board t1 = some ⟨s.side_to_move, PieceKind.King⟩ →
        piece_at s.board t2 = some ⟨s.side_to_move, PieceKind.King⟩ → t1 = t2) →
      (is_move_legal? s mv = some true ↔
        ((∃ s', apply_move_unchecked s mv = some s' ∧
            is_in_check? s' s.side_to_move = some false) ∧
          (mv.kind = MoveKind.CastleKingside →
            is_in_check? s s.side_to_move = some false ∧
            is_square_attacked s (5, home_rank s.side_to_move)
              s.side_to_move.opposite = false) ∧
          (mv.kind = MoveKind.CastleQueenside →
            is_in_check? s s.side_to_move = some false ∧
            is_square_attacked s (3, home_rank s.side_to_move)
              s.side_to_move.opposite = false)))) ∧
    (⟨(4, 0), (6, 0), MoveKind.CastleKingside⟩ : Move) ∈ generate_candidates state_s2 ∧
    is_move_legal? state_s2 ⟨(4, 0), (6, 0), MoveKind.CastleKingside⟩ = some false := by
  refine ⟨?_, by decide, by decide⟩
  intro s mv hmem huniq
  obtain ⟨piece, hp, hcolor, hfb, harm⟩ := mem_generate_candidates hmem
  rcases mv with ⟨mfrom, mto, mk⟩
  have hp' : piece_at s.board mfrom = some piece := hp
  constructor
  · intro hleg
    obtain ⟨hpost, hcastle⟩ := is_move_legal_true_spec hleg
    refine ⟨hpost, ?_, ?_⟩
    · intro hks
      have hks' : mk = MoveKind.CastleKingside := hks
      subst hks'
      obtain ⟨hpre, hpass⟩ := hcastle (Or.inl rfl)
      refine ⟨hpre, ?_⟩
      have hpass' : (is_square_attacked s (5, home_rank s.side_to_move)
            s.side_to_move.opposite ||
          is_square_attacked s (6, home_rank s.side_to_move)
            s.side_to_move.opposite) = false := hpass
      exact (Bool.or_eq_false_iff.mp hpass').1
    · intro hqs
      have hqs' : mk = MoveKind.CastleQueenside := hqs
      subst hqs'
      obtain ⟨hpre, hpass⟩ := hcastle (Or.inr rfl)
      refine ⟨hpre, ?_⟩
      have hpass' : (is_square_attacked s (3, home_rank s.side_to_move)
            s.side_to_move.opposite ||
          is_square_attacked s (2, home_rank s.side_to_move)
            s.side_to_move.opposite) = false := hpass
      exact (Bool.or_eq_false_iff.mp hpass').1
  · rintro ⟨⟨s', hap, hsafe⟩, hksC, hqsC⟩
    rcases mk with _ | _ | _ | _ | promo
    · -- Normal: legality is exactly the post-application check
      show (match apply_move_unchecked s ⟨mfrom, mto, MoveKind.Normal⟩ with
        | none => none
        | some next =>
          match is_in_check? next s.side_to_move with
          | none => none
          | some c => some (!c) : Option Bool) = some true
      rw [hap]
      show (match is_in_check? s' s.side_to_move with
        | none => none
        | some c => some (!c) : Option Bool) = some true
      rw [hsafe]; rfl
    · -- EnPassant
      show (match apply_move_unchecked s ⟨mfrom, mto, MoveKind.EnPassant⟩ with
        | none => none
        | some next =>
          match is_in_check? next s.side_to_move with
          | none => none
          | some c => some (!c) : Option Bool) = some true
      rw [hap]
      show (match is_in_check? s' s.side_to_move with
        | none => none
        | some c => some (!c) : Option Bool) = some true
      rw [hsafe]; rfl
    · -- CastleKingside
      obtain ⟨hpreF, htransF⟩ := hksC rfl
      rcases piece with ⟨pcol, pkind⟩
      have hcolor' : pcol = s.side_to_move := hcolor
      subst hcolor'
      have harm' : pkind = PieceKind.King ∧ mfrom = (4, home_rank s.side_to_move) ∧
          mto = (6, home_rank s.side_to_move) ∧
          piece_at s.board (5, home_rank s.side_to_move) = none ∧
          piece_at s.board (6, home_rank s.side_to_move) = none ∧
          piece_at s.board (7, home_rank s.side_to_move)
            = some ⟨s.side_to_move, PieceKind.Rook⟩ := harm
      have hpk : pkind = PieceKind.King := harm'.1
      subst hpk
      have hrook : piece_at ({ s with en_passant := none } : GameState).board
          (7, home_rank s.side_to_move) = some ⟨s.side_to_move, PieceKind.Rook⟩ :=
        harm'.2.2.2.2.2
      have happly := apply_move_unchecked_eq s ⟨mfrom, mto, MoveKind.CastleKingside⟩
        ⟨s.side_to_move, PieceKind.King⟩ hp'
        (apply_move_step_castle_ks { s with en_passant := none } mfrom mto
          s.side_to_move PieceKind.King ⟨s.side_to_move, PieceKind.Rook⟩ hrook)
      have hfin : apply_finish { s with en_passant := none }
          ⟨mfrom, mto, MoveKind.CastleKingside⟩ ⟨s.side_to_move, PieceKind.King⟩
          (set_piece (set_piece (set_piece (set_piece s.board mfrom none)
            (6, home_rank s.side_to_move) (some ⟨s.side_to_move, PieceKind.King⟩))
            (7, home_rank s.side_to_move) none) (5, home_rank s.side_to_move)
            (some ⟨s.side_to_move, PieceKind.Rook⟩)) none none = s' :=
        Option.some.inj (happly.symm.trans hap)
      have hboard : s'.board = set_piece (set_piece (set_piece (set_piece s.board mfrom none)
          (6, home_rank s.side_to_move) (some ⟨s.side_to_move, PieceKind.King⟩))
          (7, home_rank s.side_to_move) none) (5, home_rank s.side_to_move)
          (some ⟨s.side_to_move, PieceKind.Rook⟩) := by
        rw [← hfin]
        exact (apply_finish_fields _ _ _ _ _ _).1
      rw [harm'.2.1] at hboard hp'
      have hfk : find_king s'.board s.side_to_move
          = some (6, home_rank s.side_to_move) := by
        rw [hboard]
        exact find_king_castle_ks s s.side_to_move
          (fun t ht hkt => huniq t ht (4, home_rank s.side_to_move)
            (mem_all_squares.mpr ⟨by omega, home_rank_lt _⟩) hkt hp')
      have postfalse : is_square_attacked s' (6, home_rank s.side_to_move)
          s.side_to_move.opposite = false := by
        have hic : (find_king s'.board s.side_to_move).map
            (fun k => is_square_attacked s' k s.side_to_move.opposite) = some false := hsafe
        rw [hfk] at hic
        simpa using hic
      have h5h := harm'.2.2.2.1
      have h7h := harm'.2.2.2.2.2
      cases hc : s.side_to_move
      · -- White
        rw [hc] at postfalse hboard hp' htransF h5h h7h
        have h4c : piece_at s.board (4, 0) = some ⟨Color.White, PieceKind.King⟩ := hp'
        have h5c : piece_at s.board (5, 0) = none := h5h
        have h7c : piece_at s.board (7, 0) = some ⟨Color.White, PieceKind.Rook⟩ := h7h
        have hboard' : s'.board = set_piece (set_piece (set_piece (set_piece s.board
            (4, 0) none) (6, 0) (some ⟨Color.White, PieceKind.King⟩)) (7, 0) none) (5, 0)
            (some ⟨Color.White, PieceKind.Rook⟩) := hboard
        have postc : is_square_attacked s' (6, 0) Color.Black = false := postfalse
        have hgeom := wks_attack_eq s h4c h5c h7c
        have hty : is_square_attacked { s with board :=
            (set_piece (set_piece (set_piece (set_piece s.board (4, 0) none) (6, 0)
              (some ⟨Color.White, PieceKind.King⟩)) (7, 0) none) (5, 0)
              (some ⟨Color.White, PieceKind.Rook⟩)) } (6, 0) Color.Black = false := by
          rw [← hboard']
          rw [is_square_attacked_board_eq { s with board := s'.board } s' rfl]
          exact postc
        have att6 : is_square_attacked s (6, 0) Color.Black = false := by
          rw [← hgeom]
          exact hty
        have att5 : is_square_attacked s (5, 0) Color.Black = false := htransF
        have hkp : king_passes_through_check s
            ⟨mfrom, mto, MoveKind.CastleKingside⟩ = false := by
          show (is_square_attacked s (5, if s.side_to_move = Color.White then 0 else 7)
              s.side_to_move.opposite ||
            is_square_attacked s (6, if s.side_to_move = Color.White then 0 else 7)
              s.side_to_move.opposite) = false
          rw [hc]
          show (is_square_attacked s (5, 0) Color.Black ||
            is_square_attacked s (6, 0) Color.Black) = false
          rw [att5, att6]; rfl
        show (match is_in_check? s s.side_to_move with
          | none => none
          | some true => some false
          | some false =>
            if king_passes_through_check s ⟨mfrom, mto, MoveKind.CastleKingside⟩ then
              some false
            else
              match apply_move_unchecked s ⟨mfrom, mto, MoveKind.CastleKingside⟩ with
              | none => none
              | some next =>
                match is_in_check? next s.side_to_move with
                | none => none
                | some c => some (!c) : Option Bool) = some true
        rw [hpreF]
        show (if king_passes_through_check s ⟨mfrom, mto, MoveKind.CastleKingside⟩ then
            some false
          else
            match apply_move_unchecked s ⟨mfrom, mto, MoveKind.CastleKingside⟩ with
            | none => none
            | some next =>
              match is_in_check? next s.side_to_move with
              | none => none
              | some c => some (!c) : Option Bool) = some true
        rw [if_neg (by simp [hkp]), hap]
        show (match is_in_check? s' s.side_to_move with
          | none => none
          | some c => some (!c) : Option Bool) = some true
        rw [hsafe]; rfl
      · -- Black
        rw [hc] at postfalse hboard hp' htransF h5h h7h
        have h4c : piece_at s.board (4, 7) = some ⟨Color.Black, PieceKind.King⟩ := hp'
        have h5c : piece_at s.board (5, 7) = none := h5h
        have h7c : piece_at s.board (7, 7) = some ⟨Color.Black, PieceKind.Rook⟩ := h7h
        have hboard' : s'.board = set_piece (set_piece (set_piece (set_piece s.board
            (4, 7) none) (6, 7) (some ⟨Color.Black, PieceKind.King⟩)) (7, 7) none) (5, 7)
            (some ⟨Color.Black, PieceKind.Rook⟩) := hboard
        have postc : is_square_attacked s' (6, 7) Color.White = false := postfalse
        have hgeom := bks_attack_eq s h4c h5c h7c
        have hty : is_square_attacked { s with board :=
            (set_piece (set_piece (set_piece (set_piece s.board (4, 7) none) (6, 7)
              (some ⟨Color.Black, PieceKind.King⟩)) (7, 7) none) (5, 7)
              (some ⟨Color.Black, PieceKind.Rook⟩)) } (6, 7) Color.White = false := by
          rw [← hboard']
          rw [is_square_attacked_board_eq { s with board := s'.board } s' rfl]
          exact postc
        have att6 : is_square_attacked s (6, 7) Color.White = false := by
          rw [← hgeom]
          exact hty
        have att5 : is_square_attacked s (5, 7) Color.White = false := htransF
        have hkp : king_passes_through_check s
            ⟨mfrom, mto, MoveKind.CastleKingside⟩ = false := by
          show (is_square_attacked s (5, if s.side_to_move = Color.White then 0 else 7)
              s.side_to_move.opposite ||
            is_square_attacked s (6, if s.side_to_move = Color.White then 0 else 7)
              s.side_to_move.opposite) = false
          rw [hc]
          show (is_square_attacked s (5, 7) Color.White ||
            is_square_attacked s (6, 7) Color.White) = false
          rw [att5, att6]; rfl
        show (match is_in_check? s s.side_to_move with
          | none => none
          | some true => some false
          | some false =>
            if king_passes_through_check s ⟨mfrom, mto, MoveKind.CastleKingside⟩ then
              some false
            else
              match apply_move_unchecked s ⟨mfrom, mto, MoveKind.CastleKingside⟩ with
              | none => none
              | some next =>
                match is_in_check? next s.side_to_move with
                | none => none
                | some c => some (!c) : Option Bool) = some true
        rw [hpreF]
        show (if king_passes_through_check s ⟨mfrom, mto, MoveKind.CastleKingside⟩ then
            some false
          else
            match apply_move_unchecked s ⟨mfrom, mto, MoveKind.CastleKingside⟩ with
            | none => none
            | some next =>
              match is_in_check? next s.side_to_move with
              | none => none
              | some c => some (!c) : Option Bool) = some true
        rw [if_neg (by simp [hkp]), hap]
        show (match is_in_check? s' s.side_to_move with
          | none => none
          | some c => some (!c) : Option Bool) = some true
        rw [hsafe]; rfl
    · -- CastleQueenside
      obtain ⟨hpreF, htransF⟩ := hqsC rfl
      rcases piece with ⟨pcol, pkind⟩
      have hcolor' : pcol = s.side_to_move := hcolor
      subst hcolor'
      have harm' : pkind = PieceKind.King ∧ mfrom = (4, home_rank s.side_to_move) ∧
          mto = (2, home_rank s.side_to_move) ∧
          piece_at s.board (1, home_rank s.side_to_move) = none ∧
          piece_at s.board (2, home_rank s.side_to_move) = none ∧
          piece_at s.board (3, home_rank s.side_to_move) = none ∧
          piece_at s.board (0, home_rank s.side_to_move)
            = some ⟨s.side_to_move, PieceKind.Rook⟩ := harm
      have hpk : pkind = PieceKind.King := harm'.1
      subst hpk
      have hrook : piece_at ({ s with en_passant := none } : GameState).board
          (0, home_rank s.side_to_move) = some ⟨s.side_to_move, PieceKind.Rook⟩ :=
        harm'.2.2.2.2.2.2
      have happly := apply_move_unchecked_eq s ⟨mfrom, mto, MoveKind.CastleQueenside⟩
        ⟨s.side_to_move, PieceKind.King⟩ hp'
        (apply_move_step_castle_qs { s with en_passant := none } mfrom mto
          s.side_to_move PieceKind.King ⟨s.side_to_move, PieceKind.Rook⟩ hrook)
      have hfin : apply_finish { s with en_passant := none }
          ⟨mfrom, mto, MoveKind.CastleQueenside⟩ ⟨s.side_to_move, PieceKind.King⟩
          (set_piece (set_piece (set_piece (set_piece s.board mfrom none)
            (2, home_rank s.side_to_move) (some ⟨s.side_to_move, PieceKind.King⟩))
            (0, home_rank s.side_to_move) none) (3, home_rank s.side_to_move)
            (some ⟨s.side_to_move, PieceKind.Rook⟩)) none none = s' :=
        Option.some.inj (happly.symm.trans hap)
      have hboard : s'.board = set_piece (set_piece (set_piece (set_piece s.board mfrom none)
          (2, home_rank s.side_to_move) (some ⟨s.side_to_move, PieceKind.King⟩))
          (0, home_rank s.side_to_move) none) (3, home_rank s.side_to_move)
          (some ⟨s.side_to_move, PieceKind.Rook⟩) := by
        rw [← hfin]
        exact (apply_finish_fields _ _ _ _ _ _).1
      rw [harm'.2.1] at hboard hp'
      have hfk : find_king s'.board s.side_to_move
          = some (2, home_rank s.side_to_move) := by
        rw [hboard]
        exact find_king_castle_qs s s.side_to_move
          (fun t ht hkt => huniq t ht (4, home_rank s.side_to_move)
            (mem_all_squares.mpr ⟨by omega, home_rank_lt _⟩) hkt hp')
      have postfalse : is_square_attacked s' (2, home_rank s.side_to_move)
          s.side_to_move.opposite = false := by
        have hic : (find_king s'.board s.side_to_move).map
            (fun k => is_square_attacked s' k s.side_to_move.opposite) = some false := hsafe
        rw [hfk] at hic
        simpa using hic
      have h1h := harm'.2.2.2.1
      have h3h := harm'.2.2.2.2.2.1
      have h0h := harm'.2.2.2.2.2.2
      cases hc : s.side_to_move
      · -- White
        rw [hc] at postfalse hboard hp' htransF h1h h3h h0h
        have h4c : piece_at s.board (4, 0) = some ⟨Color.White, PieceKind.King⟩ := hp'
        have h1c : piece_at s.board (1, 0) = none := h1h
        have h3c : piece_at s.board (3, 0) = none := h3h
        have h0c : piece_at s.board (0, 0) = some ⟨Color.White, PieceKind.Rook⟩ := h0h
        have hboard' : s'.board = set_piece (set_piece (set_piece (set_piece s.board
            (4, 0) none) (2, 0) (some ⟨Color.White, PieceKind.King⟩)) (0, 0) none) (3, 0)
            (some ⟨Color.White, PieceKind.Rook⟩) := hboard
        have postc : is_square_attacked s' (2, 0) Color.Black = false := postfalse
        have hgeom := wqs_attack_eq s h4c h1c h3c h0c
        have hty : is_square_attacked { s with board :=
            (set_piece (set_piece (set_piece (set_piece s.board (4, 0) none) (2, 0)
              (some ⟨Color.White, PieceKind.King⟩)) (0, 0) none) (3, 0)
              (some ⟨Color.White, PieceKind.Rook⟩)) } (2, 0) Color.Black = false := by
          rw [← hboard']
          rw [is_square_attacked_board_eq { s with board := s'.board } s' rfl]
          exact postc
        have att2 : is_square_attacked s (2, 0) Color.Black = false := by
          rw [← hgeom]
          exact hty
        have att3 : is_square_attacked s (3, 0) Color.Black = false := htransF
        have hkp : king_passes_through_check s
            ⟨mfrom, mto, MoveKind.CastleQueenside⟩ = false := by
          show (is_square_attacked s (3, if s.side_to_move = Color.White then 0 else 7)
              s.side_to_move.opposite ||
            is_square_attacked s (2, if s.side_to_move = Color.White then 0 else 7)
              s.side_to_move.opposite) = false
          rw [hc]
          show (is_square_attacked s (3, 0) Color.Black ||
            is_square_attacked s (2, 0) Color.Black) = false
          rw [att3, att2]; rfl
        show (match is_in_check? s s.side_to_move with
          | none => none
          | some true => some false
          | some false =>
            if king_passes_through_check s ⟨mfrom, mto, MoveKind.CastleQueenside⟩ then
              some false
            else
              match apply_move_unchecked s ⟨mfrom, mto, MoveKind.CastleQueenside⟩ with
              | none => none
              | some next =>
                match is_in_check? next s.side_to_move with
                | none => none
                | some c => some (!c) : Option Bool) = some true
        rw [hpreF]
        show (if king_passes_through_check s ⟨mfrom, mto, MoveKind.CastleQueenside⟩ then
            some false
          else
            match apply_move_unchecked s ⟨mfrom, mto, MoveKind.CastleQueenside⟩ with
            | none => none
            | some next =>
              match is_in_check? next s.side_to_move with
              | none => none
              | some c => some (!c) : Option Bool) = some true
        rw [if_neg (by simp [hkp]), hap]
        show (match is_in_check? s' s.side_to_move with
          | none => none
          | some c => some (!c) : Option Bool) = some true
        rw [hsafe]; rfl
      · -- Black
        rw [hc] at postfalse hboard hp' htransF h1h h3h h0h
        have h4c : piece_at s.board (4, 7) = some ⟨Color.Black, PieceKind.King⟩ := hp'
        have h1c : piece_at s.board (1, 7) = none := h1h
        have h3c : piece_at s.board (3, 7) = none := h3h
        have h0c : piece_at s.board (0, 7) = some ⟨Color.Black, PieceKind.Rook⟩ := h0h
        have hboard' : s'.board = set_piece (set_piece (set_piece (set_piece s.board
            (4, 7) none) (2, 7) (some ⟨Color.Black, PieceKind.King⟩)) (0, 7) none) (3, 7)
            (some ⟨Color.Black, PieceKind.Rook⟩) := hboard
        have postc : is_square_attacked s' (2, 7) Color.White = false := postfalse
        have hgeom := bqs_attack_eq s h4c h1c h3c h0c
        have hty : is_square_attacked { s with board :=
            (set_piece (set_piece (set_piece (set_piece s.board (4, 7) none) (2, 7)
              (some ⟨Color.Black, PieceKind.King⟩)) (0, 7) none) (3, 7)
              (some ⟨Color.Black, PieceKind.Rook⟩)) } (2, 7) Color.White = false := by
          rw [← hboard']
          rw [is_square_attacked_board_eq { s with board := s'.board } s' rfl]
          exact postc
        have att2 : is_square_attacked s (2, 7) Color.White = false := by
          rw [← hgeom]
          exact hty
        have att3 : is_square_attacked s (3, 7) Color.White = false := htransF
        have hkp : king_passes_through_check s
            ⟨mfrom, mto, MoveKind.CastleQueenside⟩ = false := by
          show (is_square_attacked s (3, if s.side_to_move = Color.White then 0 else 7)
              s.side_to_move.opposite ||
            is_square_attacked s (2, if s.side_to_move = Color.White then 0 else 7)
              s.side_to_move.opposite) = false
          rw [hc]
          show (is_square_attacked s (3, 7) Color.White ||
            is_square_attacked s (2, 7) Color.White) = false
          rw [att3, att2]; rfl
        show (match is_in_check? s s.side_to_move with
          | none => none
          | some true => some false
          | some false =>
            if king_passes_through_check s ⟨mfrom, mto, MoveKind.CastleQueenside⟩ then
              some false
            else
              match apply_move_unchecked s ⟨mfrom, mto, MoveKind.CastleQueenside⟩ with
              | none => none
              | some next =>
                match is_in_check? next s.side_to_move with
                | none => none
                | some c => some (!c) : Option Bool) = some true
        rw [hpreF]
        show (if king_passes_through_check s ⟨mfrom, mto, MoveKind.CastleQueenside⟩ then
            some false
          else
            match apply_move_unchecked s ⟨mfrom, mto, MoveKind.CastleQueenside⟩ with
            | none => none
            | some next =>
              match is_in_check? next s.side_to_move with
              | none => none
              | some c => some (!c) : Option Bool) = some true
        rw [if_neg (by simp [hkp]), hap]
        show (match is_in_check? s' s.side_to_move with
          | none => none
          | some c => some (!c) : Option Bool) = some true
        rw [hsafe]; rfl
    · -- Promotion
      show (match apply_move_unchecked s ⟨mfrom, mto, MoveKind.Promotion promo⟩ with
        | none => none
        | some next =>
          match is_in_check? next s.side_to_move with
          | none => none
          | some c => some (!c) : Option Bool) = some true
      rw [hap]
      show (match is_in_check? s' s.side_to_move with
        | none => none
        | some c => some (!c) : Option Bool) = some true
      rw [hsafe]; rfl

set_option maxRecDepth 10000 in
/-- Witness for the C5 characterization at a concrete input: the knight
move b1c3 from the initial position, with the king-uniqueness side
condition checked by evaluation. -/
theorem castle_legality_characterization_witness :
    ((⟨(1, 0), (2, 2), MoveKind.Normal⟩ : Move) ∈ generate_candidates GameState.new) ∧
    (is_move_legal? GameState.new ⟨(1, 0), (2, 2), MoveKind.Normal⟩ = some true ↔
      ((∃ s', apply_move_unchecked GameState.new ⟨(1, 0), (2, 2), MoveKind.Normal⟩
            = some s' ∧
          is_in_check? s' GameState.new.side_to_move = some false) ∧
        ((⟨(1, 0), (2, 2), MoveKind.Normal⟩ : Move).kind = MoveKind.CastleKingside →
          is_in_check? GameState.new GameState.new.side_to_move = some false ∧
          is_square_attacked GameState.new (5, home_rank GameState.new.side_to_move)
            GameState.new.side_to_move.opposite = false) ∧
        ((⟨(1, 0), (2, 2), MoveKind.Normal⟩ : Move).kind = MoveKind.CastleQueenside →
          is_in_check? GameState.new GameState.new.side_to_move = some false ∧
          is_square_attacked GameState.new (3, home_rank GameState.new.side_to_move)
            GameState.new.side_to_move.opposite = false))) :=
  ⟨by decide,
    castle_legality_characterization.1 GameState.new ⟨(1, 0), (2, 2), MoveKind.Normal⟩
      (by decide) (by decide)⟩
